import Mathlib

/-!
Shallow embedding of the resilient external-service orchestration core of the
TriageSense backend (HackFax2026 repository):

* `src/backend/services/scraperService.js` — the Gemini orchestration module
  (candidate-model call chain, JSON extraction, contract validation, language
  detection, translation, transcription) and the wait-time scraping module
  (name normalization, word-overlap fuzzy matching).
* `src/backend/services/waittimeService.js` — batch wait-time resolution with
  the deterministic synthetic fallback generator.

JavaScript strings are modelled as Lean `String` (UTF-16 vs. scalar-value
indexing only matters for astral characters, which the embedded routines treat
uniformly).  Network calls (`generateContent`, page scraping) are modelled as
explicit oracle functions passed to the embedded operations; reads of ambient
state (`process.env`, `new Date().getHours()`) become explicit parameters.
`JSON.parse` / JavaScript number coercion are modelled exactly (arbitrary
precision) rather than with IEEE floats; the embedded code only compares small
integer values, where the two agree.
-/

/-! ## JavaScript string primitives -/

/-- The JavaScript whitespace class: characters matched by `\s` and removed by
`String.prototype.trim` (space, tab, line terminators, and Unicode spaces). -/
def jsIsWs (c : Char) : Bool :=
  let n := c.toNat
  n == 0x20 || n == 0x09 || n == 0x0A || n == 0x0D || n == 0x0B || n == 0x0C ||
  n == 0xA0 || n == 0x1680 || (0x2000 ≤ n && n ≤ 0x200A) || n == 0x2028 ||
  n == 0x2029 || n == 0x202F || n == 0x205F || n == 0x3000 || n == 0xFEFF

/-- JavaScript `String.prototype.trim`. -/
def jsTrim (s : String) : String :=
  ⟨((s.data.dropWhile jsIsWs).reverse.dropWhile jsIsWs).reverse⟩

/-- ASCII lower-casing of one character (the embedded code only lower-cases
ASCII identifiers, error messages and hospital names). -/
def lowerChar (c : Char) : Char :=
  if 'A' ≤ c && c ≤ 'Z' then Char.ofNat (c.toNat + 32) else c

/-- JavaScript `String.prototype.toLowerCase`, restricted to ASCII. -/
def jsToLower (s : String) : String :=
  ⟨s.data.map lowerChar⟩

/-- Substring containment on character lists (JavaScript `String.prototype.includes`). -/
def containsSub (pat : List Char) : List Char → Bool
  | [] => pat.isEmpty
  | c :: rest => pat.isPrefixOf (c :: rest) || containsSub pat rest

/-- JavaScript `hay.includes(pat)`. -/
def jsIncludes (hay pat : String) : Bool :=
  containsSub pat.data hay.data

/-- Split a character list at every occurrence of a separator character
(JavaScript `String.prototype.split` with a one-character separator). -/
def splitOnCharAux (sep : Char) : List Char → List Char → List (List Char)
  | [], acc => [acc.reverse]
  | c :: rest, acc =>
    if c = sep then acc.reverse :: splitOnCharAux sep rest []
    else splitOnCharAux sep rest (c :: acc)

/-- JavaScript `s.split(sep)` for a one-character separator. -/
def jsSplit (s : String) (sep : Char) : List String :=
  (splitOnCharAux sep s.data []).map (fun cs => ⟨cs⟩)

/-- JavaScript `Array.prototype.join(sep)`. -/
def joinSep (sep : String) : List String → String
  | [] => ""
  | [x] => x
  | x :: y :: rest => x ++ sep ++ joinSep sep (y :: rest)

/-- Replace the first occurrence of `pat` in a character list
(JavaScript `String.prototype.replace` with a string pattern replaces only the
first occurrence and does not rescan the replacement text). -/
def replaceFirstAux (pat repl : List Char) : List Char → List Char
  | [] => []
  | c :: rest =>
    if pat.isPrefixOf (c :: rest) then repl ++ (c :: rest).drop pat.length
    else c :: replaceFirstAux pat repl rest

/-- JavaScript `s.replace(pat, repl)` for a string pattern. -/
def jsReplaceFirst (s pat repl : String) : String :=
  ⟨replaceFirstAux pat.data repl.data s.data⟩

/-- Index of the first occurrence of a character (JavaScript `indexOf`),
`none` standing for `-1`. -/
def idxOfChar (c : Char) : List Char → Option Nat
  | [] => none
  | x :: rest => if x = c then some 0 else (idxOfChar c rest).map (· + 1)

/-- Index of the last occurrence of a character (JavaScript `lastIndexOf`),
`none` standing for `-1`. -/
def lastIdxOfChar (c : Char) (cs : List Char) : Option Nat :=
  (idxOfChar c cs.reverse).map (fun k => cs.length - 1 - k)

/-- JavaScript `s.startsWith(pat)`. -/
def jsStartsWith (s pat : String) : Bool :=
  pat.data.isPrefixOf s.data

/-! ## JSON values and `JSON.parse`

`parseJsonFromText` in `scraperService.js` relies on the host `JSON.parse`.
We embed JSON values and a standard (RFC 8259) recursive-descent parser.
Numbers are kept exact as `mantissa · 10^exp`; `\uXXXX` escapes denoting
surrogate halves (never produced by the modelled payloads) are mapped to the
null character because Lean `Char` holds Unicode scalar values. -/

/-- An exact JSON number `man · 10^exp10`. -/
structure JNum where
  man : Int
  exp10 : Int
  deriving DecidableEq, Repr

/-- JSON values.  Object fields are kept in source order; duplicate keys are
resolved to the last occurrence at lookup time, as `JSON.parse` does. -/
inductive Json where
  | null
  | bool (b : Bool)
  | num (n : JNum)
  | str (s : String)
  | arr (elems : List Json)
  | obj (fields : List (String × Json))
  deriving Repr

/-- JSON structural whitespace. -/
def isJsonWs (c : Char) : Bool :=
  c == ' ' || c == '\t' || c == '\n' || c == '\r'

/-- Skip JSON structural whitespace. -/
def skipJsonWs (cs : List Char) : List Char :=
  cs.dropWhile isJsonWs

/-- Value of a hexadecimal digit. -/
def hexVal (c : Char) : Option Nat :=
  if '0' ≤ c && c ≤ '9' then some (c.toNat - 48)
  else if 'a' ≤ c && c ≤ 'f' then some (c.toNat - 87)
  else if 'A' ≤ c && c ≤ 'F' then some (c.toNat - 55)
  else none

/-- Parse the body of a JSON string (after the opening quote), returning the
decoded string and the input following the closing quote. -/
def parseStringBody : Nat → List Char → List Char → Option (String × List Char)
  | 0, _, _ => none
  | _ + 1, _, [] => none
  | fuel + 1, acc, c :: rest =>
    if c = '"' then some (⟨acc.reverse⟩, rest)
    else if c = '\\' then
      match rest with
      | [] => none
      | e :: rest2 =>
        if e = '"' then parseStringBody fuel ('"' :: acc) rest2
        else if e = '\\' then parseStringBody fuel ('\\' :: acc) rest2
        else if e = '/' then parseStringBody fuel ('/' :: acc) rest2
        else if e = 'b' then parseStringBody fuel (Char.ofNat 0x08 :: acc) rest2
        else if e = 'f' then parseStringBody fuel (Char.ofNat 0x0C :: acc) rest2
        else if e = 'n' then parseStringBody fuel ('\n' :: acc) rest2
        else if e = 'r' then parseStringBody fuel ('\r' :: acc) rest2
        else if e = 't' then parseStringBody fuel ('\t' :: acc) rest2
        else if e = 'u' then
          match rest2 with
          | h1 :: h2 :: h3 :: h4 :: rest3 =>
            match hexVal h1, hexVal h2, hexVal h3, hexVal h4 with
            | some a, some b, some c2, some d =>
              parseStringBody fuel (Char.ofNat (a * 4096 + b * 256 + c2 * 16 + d) :: acc) rest3
            | _, _, _, _ => none
          | _ => none
        else none
    else if c.toNat < 0x20 then none
    else parseStringBody fuel (c :: acc) rest

/-- Decimal digits at the front of the input. -/
def takeDigits (cs : List Char) : List Char × List Char :=
  cs.span (fun c => '0' ≤ c && c ≤ '9')

/-- Natural number denoted by a digit list. -/
def digitsToNat (ds : List Char) : Nat :=
  ds.foldl (fun a c => a * 10 + (c.toNat - 48)) 0

/-- Parse a JSON number token (RFC 8259 grammar: optional minus, integer part
without leading zeros, optional fraction, optional exponent). -/
def parseNumberTok (cs : List Char) : Option (JNum × List Char) :=
  let signed : Bool × List Char :=
    match cs with
    | '-' :: r => (true, r)
    | _ => (false, cs)
  let neg := signed.1
  let cs1 := signed.2
  let ip := takeDigits cs1
  if ip.1 = [] then none
  else if ip.1.length > 1 && ip.1.headD ' ' = '0' then none
  else
    let fracStep : Option (List Char × List Char) :=
      match ip.2 with
      | '.' :: r =>
        let fp := takeDigits r
        if fp.1 = [] then none else some (fp.1, fp.2)
      | _ => some ([], ip.2)
    match fracStep with
    | none => none
    | some (fds, cs2) =>
      let expStep : Option (Int × List Char) :=
        match cs2 with
        | 'e' :: r | 'E' :: r =>
          let esigned : Bool × List Char :=
            match r with
            | '+' :: r2 => (false, r2)
            | '-' :: r2 => (true, r2)
            | _ => (false, r)
          let ep := takeDigits esigned.2
          if ep.1 = [] then none
          else some ((if esigned.1 then -(digitsToNat ep.1 : Int) else (digitsToNat ep.1 : Int)), ep.2)
        | _ => some (0, cs2)
      match expStep with
      | none => none
      | some (ex, cs3) =>
        let manNat := digitsToNat (ip.1 ++ fds)
        let man : Int := if neg then -(manNat : Int) else (manNat : Int)
        some (⟨man, ex - (fds.length : Int)⟩, cs3)

mutual

/-- Parse one JSON value (leading whitespace allowed), returning the value and
the rest of the input. -/
def parseJValue : Nat → List Char → Option (Json × List Char)
  | 0, _ => none
  | fuel + 1, cs =>
    match skipJsonWs cs with
    | [] => none
    | c :: rest =>
      if c = '{' then
        match skipJsonWs rest with
        | '}' :: r2 => some (.obj [], r2)
        | r2 => parseJObjItems fuel r2 []
      else if c = '[' then
        match skipJsonWs rest with
        | ']' :: r2 => some (.arr [], r2)
        | r2 => parseJArrItems fuel r2 []
      else if c = '"' then
        (parseStringBody (rest.length + 1) [] rest).map (fun p => (.str p.1, p.2))
      else
        match c :: rest with
        | 't' :: 'r' :: 'u' :: 'e' :: r => some (.bool true, r)
        | 'f' :: 'a' :: 'l' :: 's' :: 'e' :: r => some (.bool false, r)
        | 'n' :: 'u' :: 'l' :: 'l' :: r => some (.null, r)
        | cs2 => (parseNumberTok cs2).map (fun p => (.num p.1, p.2))

/-- Parse the members of a JSON object, positioned at the start of a key. -/
def parseJObjItems : Nat → List Char → List (String × Json) → Option (Json × List Char)
  | 0, _, _ => none
  | fuel + 1, cs, acc =>
    match cs with
    | '"' :: rest =>
      match parseStringBody (rest.length + 1) [] rest with
      | none => none
      | some (k, r1) =>
        match skipJsonWs r1 with
        | ':' :: r2 =>
          match parseJValue fuel r2 with
          | none => none
          | some (v, r3) =>
            match skipJsonWs r3 with
            | ',' :: r4 => parseJObjItems fuel (skipJsonWs r4) ((k, v) :: acc)
            | '}' :: r4 => some (.obj ((k, v) :: acc).reverse, r4)
            | _ => none
        | _ => none
    | _ => none

/-- Parse the elements of a JSON array, positioned at the start of a value. -/
def parseJArrItems : Nat → List Char → List Json → Option (Json × List Char)
  | 0, _, _ => none
  | fuel + 1, cs, acc =>
    match parseJValue fuel cs with
    | none => none
    | some (v, r1) =>
      match skipJsonWs r1 with
      | ',' :: r2 => parseJArrItems fuel r2 (v :: acc)
      | ']' :: r2 => some (.arr (v :: acc).reverse, r2)
      | _ => none

end

/-- `JSON.parse`: parse a complete JSON document (only trailing whitespace may
remain). -/
def parseJson (s : String) : Option Json :=
  match parseJValue (s.data.length + 2) s.data with
  | some (v, rest) => if skipJsonWs rest = [] then some v else none
  | none => none

/-- Field lookup on a parsed JSON value (JavaScript property access on the
result of `JSON.parse`): objects resolve duplicate keys to the last
occurrence; any non-object yields `undefined` (`none`). -/
def Json.getField : Json → String → Option Json
  | .obj fields, k => (fields.reverse.find? (fun p => p.1 == k)).map (·.2)
  | _, _ => none

/-- The pattern `typeof x === 'string' ? x.trim() : ''` applied to a field of
a parsed payload, ubiquitous in `scraperService.js`. -/
def getTrimmedStr (j : Json) (k : String) : String :=
  match j.getField k with
  | some (.str s) => jsTrim s
  | _ => ""

/-! ## JavaScript number coercion

`validateAndNormalize` applies `Number(...)` and `Number.isInteger(...)` to
the `severity` field of a parsed payload.  We model the coercion exactly;
`NaN` is `none`.  (Hexadecimal string literals and the `ToPrimitive`
conversion of multi-element arrays — never produced by a JSON payload the
service consumes — are conservatively mapped to `NaN`.) -/

/-- Exact integer value of a `JNum`, `none` when the value is not an integer
(JavaScript `Number.isInteger` combined with reading the value). -/
def JNum.toInt? (n : JNum) : Option Int :=
  if 0 ≤ n.exp10 then some (n.man * (10 : Int) ^ n.exp10.toNat)
  else
    let d : Int := (10 : Int) ^ (-n.exp10).toNat
    if n.man % d = 0 then some (n.man / d) else none

/-- JavaScript `Number(s)` for a string: trimmed empty string is `0`, an
optional sign followed by a decimal literal (integer and/or fraction digits,
optional exponent) is its value, anything else is `NaN`. -/
def strToNum (s : String) : Option JNum :=
  let t := jsTrim s
  if t = "" then some ⟨0, 0⟩
  else
    let signed : Bool × List Char :=
      match t.data with
      | '+' :: r => (false, r)
      | '-' :: r => (true, r)
      | cs => (false, cs)
    let ip := takeDigits signed.2
    let fracStep : Option (List Char × List Char) :=
      match ip.2 with
      | '.' :: r =>
        let fp := takeDigits r
        some (fp.1, fp.2)
      | _ => some ([], ip.2)
    match fracStep with
    | none => none
    | some (fds, cs2) =>
      if ip.1 = [] && fds = [] then none
      else
        let expStep : Option (Int × List Char) :=
          match cs2 with
          | 'e' :: r | 'E' :: r =>
            let esigned : Bool × List Char :=
              match r with
              | '+' :: r2 => (false, r2)
              | '-' :: r2 => (true, r2)
              | _ => (false, r)
            let ep := takeDigits esigned.2
            if ep.1 = [] then none
            else some ((if esigned.1 then -(digitsToNat ep.1 : Int) else (digitsToNat ep.1 : Int)), ep.2)
          | _ => some (0, cs2)
        match expStep with
        | none => none
        | some (ex, cs3) =>
          if cs3 ≠ [] then none
          else
            let manNat := digitsToNat (ip.1 ++ fds)
            let man : Int := if signed.1 then -(manNat : Int) else (manNat : Int)
            some ⟨man, ex - (fds.length : Int)⟩

/-- JavaScript `Number(x)` on a (possibly absent) parsed JSON value. -/
def jsToNum : Option Json → Option JNum
  | none => none
  | some .null => some ⟨0, 0⟩
  | some (.bool b) => some ⟨if b then 1 else 0, 0⟩
  | some (.num n) => some n
  | some (.str s) => strToNum s
  | some (.arr []) => some ⟨0, 0⟩
  | some (.arr (_ :: _)) => none
  | some (.obj _) => none

/-! ## Error model

JavaScript `Error` objects carry a `message` plus the optional `status`
(set by the upstream client library), `statusCode` and `publicMessage`
properties that `scraperService.js` attaches. -/

/-- A JavaScript error as thrown/consumed by the service layer. -/
structure JsError where
  message : String
  status : Option Int := none
  statusCode : Option Int := none
  publicMessage : Option String := none
  deriving DecidableEq, Repr

/-- Outcome of one `model.generateContent(...)` attempt: the response text,
or a thrown error.  (A missing `GEMINI_API_KEY` surfaces here too, as the
configuration error thrown by `getModel` inside the loop body.) -/
inductive GemOutcome where
  | success (text : String)
  | failure (err : JsError)
  deriving DecidableEq, Repr

/-- `isModelNotFoundError` from `scraperService.js`. -/
def isModelNotFoundError (e : JsError) : Bool :=
  e.status == some 404 ||
  jsIncludes (jsToLower e.message) "not found" ||
  jsIncludes (jsToLower e.message) "is not supported"

/-- `normalizeGeminiError` from `scraperService.js`: wraps an upstream error
into a classified error with a `statusCode` and a public-safe message. -/
def normalizeGeminiError (e : JsError) : JsError :=
  let statusCode : Int :=
    match e.status with
    | some s => s
    | none => 503
  let lower := jsToLower e.message
  let publicMsg : String :=
    if statusCode = 400 then
      if jsIncludes lower "image" then
        "Uploaded image could not be processed. Try a clear JPG or PNG image."
      else "Invalid input for diagnosis request"
    else "Diagnosis service temporarily unavailable"
  { message := "Gemini call failed: " ++ e.message
    status := none
    statusCode := some (if statusCode ≥ 400 then statusCode else 503)
    publicMessage := some publicMsg }

/-! ## `parseJsonFromText` -/

/-- `parseJsonFromText` from `scraperService.js`: trim; reject empty text;
try a direct `JSON.parse`; on failure extract the substring from the first
`\x7b` to the last `\x7d` and parse that; classify each failure.  (The host
engine embeds its own message after "Gemini JSON parse failed: "; we model it
as a fixed string.) -/
def parseJsonFromText (text : String) : Except JsError Json :=
  let raw := jsTrim text
  if raw = "" then .error { message := "Gemini returned empty text" }
  else
    match parseJson raw with
    | some v => .ok v
    | none =>
      match idxOfChar '{' raw.data, lastIdxOfChar '}' raw.data with
      | some st, some en =>
        if en ≤ st then .error { message := "Gemini returned non-JSON output" }
        else
          match parseJson ⟨(raw.data.drop st).take (en + 1 - st)⟩ with
          | some v => .ok v
          | none => .error { message := "Gemini JSON parse failed: invalid JSON" }
      | _, _ => .error { message := "Gemini returned non-JSON output" }

/-! ## Supported languages and payload validation -/

/-- `SUPPORTED_LANGUAGES` from `ttsService.js`. -/
def SUPPORTED_LANGUAGES : List String :=
  ["en", "es", "fr", "de", "it", "pt", "pl", "hi", "ar", "zh",
   "ja", "ko", "nl", "ru", "sv", "tr", "uk", "vi", "id", "fil",
   "ta", "te", "cs", "da", "fi", "el", "hu", "no", "ro", "sk"]

/-- `DEFAULT_LANGUAGE_CODE` from `scraperService.js`. -/
def DEFAULT_LANGUAGE_CODE : String := "en"

/-- A validated diagnosis result (the object `validateAndNormalize` returns). -/
structure DiagnosisResult where
  condition : String
  severity : Int
  reasoning : String
  languageCode : String
  deriving DecidableEq, Repr

/-- The `languageCode` constant of `validateAndNormalize`: the payload's
code (trimmed, lower-cased) when supported, else the fallback. -/
def normalizedLanguageCodeOf (j : Json) (fallbackLanguageCode : String) : String :=
  let rawLanguageCode : String :=
    match j.getField "languageCode" with
    | some (.str s) => jsToLower (jsTrim s)
    | _ => ""
  if SUPPORTED_LANGUAGES.contains rawLanguageCode then rawLanguageCode
  else fallbackLanguageCode

/-- `validateAndNormalize` from `scraperService.js`: reject non-object
payloads, trim the string fields, coerce `severity` with `Number`, replace an
unsupported or missing `languageCode` by the fallback, and reject a blank
condition/reasoning or a non-integer/out-of-range severity. -/
def validateAndNormalize (j : Json) (fallbackLanguageCode : String) : Except JsError DiagnosisResult :=
  match j with
  | .obj _ =>
    let condition := getTrimmedStr j "condition"
    let reasoning := getTrimmedStr j "reasoning"
    let sevInt : Option Int := (jsToNum (j.getField "severity")).bind JNum.toInt?
    let languageCode := normalizedLanguageCodeOf j fallbackLanguageCode
    if condition = "" then .error { message := "Invalid LLM response: condition is required" }
    else if reasoning = "" then .error { message := "Invalid LLM response: reasoning is required" }
    else
      match sevInt with
      | some v =>
        if 1 ≤ v ∧ v ≤ 3 then .ok ⟨condition, v, reasoning, languageCode⟩
        else .error { message := "Invalid LLM response: severity must be 1, 2, or 3" }
      | none => .error { message := "Invalid LLM response: severity must be 1, 2, or 3" }
  | _ => .error { message := "Invalid LLM response shape" }

/-- Does the string contain a character in the inclusive code-point range? -/
def hasCharIn (lo hi : Nat) (s : String) : Bool :=
  s.data.any (fun c => lo ≤ c.toNat && c.toNat ≤ hi)

/-- `detectLanguageFromSymptoms` from `scraperService.js`: test fixed Unicode
script ranges against the space-joined symptom list, in source order. -/
def detectLanguageFromSymptoms (symptoms : List String) : String :=
  let text := joinSep " " symptoms
  if hasCharIn 0x600 0x6FF text then "ar"
  else if hasCharIn 0x400 0x4FF text then "ru"
  else if hasCharIn 0x4E00 0x9FFF text then "zh"
  else if hasCharIn 0x3040 0x30FF text then "ja"
  else if hasCharIn 0xAC00 0xD7AF text then "ko"
  else if hasCharIn 0x900 0x97F text then "hi"
  else if hasCharIn 0xC00 0xC7F text then "te"
  else DEFAULT_LANGUAGE_CODE

/-! ## The candidate-model call chain (`callGeminiJson`)

The loop body binds the module-level model handle to the current candidate,
issues the call (modelled by an oracle `env : String → GemOutcome` closing
over the request payload), and on a "model not found" failure resets the
handle and moves on; any other failure stops the loop. -/

/-- Observable outcome of running the candidate loop of `callGeminiJson`:
which candidates were attempted (in order), the module-level cached handle
left behind, the error left in `lastError`, and the successful response
text if any. -/
structure ChainResult where
  attempts : List String
  cached : Option String
  lastError : Option JsError
  resultText : Option String
  deriving DecidableEq, Repr

/-- The `for (const candidate of candidateModels)` loop of `callGeminiJson`.
`st` is the module-level `modelName` on entry (overwritten before each call,
so it never influences the outcome) and `lastError` is the loop variable of
the same name (`null` on entry).  A success clears `lastError` and breaks; a
"model not found" failure records the error, resets the handle and continues;
any other failure records the error and breaks. -/
def chainLoop (env : String → GemOutcome) (st : Option String)
    (lastError : Option JsError) : List String → ChainResult
  | [] => ⟨[], st, lastError, none⟩
  | c :: rest =>
    match env c with
    | .success t => ⟨[c], some c, none, some t⟩
    | .failure e =>
      if isModelNotFoundError e then
        let tr := chainLoop env none (some e) rest
        ⟨c :: tr.attempts, tr.cached, tr.lastError, tr.resultText⟩
      else ⟨[c], some c, some e, none⟩

/-- `callGeminiJson` from `scraperService.js`: run the candidate loop, rethrow
the last error (normalized), otherwise parse the response text (an absent
result — empty candidate list — reads as empty text). -/
def callGeminiJson (env : String → GemOutcome) (candidateModels : List String) : Except JsError Json :=
  let r := chainLoop env none none candidateModels
  match r.lastError with
  | some e => .error (normalizeGeminiError e)
  | none =>
    match r.resultText with
    | some t => parseJsonFromText t
    | none => parseJsonFromText ""

/-! ## Prompts and configuration -/

/-- `PROMPT_TEMPLATE` from `scraperService.js`. -/
def PROMPT_TEMPLATE : String :=
  "You are a statistical medical triage assistant.\n\nGiven the user\x27s symptoms: \x7b\x7bsymptoms\x7d\x7d\n\nYour task:\n- Output ONLY strict JSON in this format:\n\x7b\n  \"condition\": \"...\",\n  \"severity\": 1,\n  \"reasoning\": \"...\",\n  \"languageCode\": \"en\"\n\x7d\n\nRules:\n- No medical advice.\n- Only statistical likelihood.\n- Severity must be an integer: 1 = mild, 2 = moderate, 3 = severe.\n- languageCode must be a lowercase ISO 639-1 code.\n- Use severity 3 for dangerous symptoms (chest pain, fainting, stroke signs, severe bleeding, difficulty breathing).\n- Do NOT include markdown, code fences, or any text outside the JSON."

/-- `LANGUAGE_LABELS` from `scraperService.js`. -/
def LANGUAGE_LABELS : List (String × String) :=
  [("en", "English"), ("es", "Spanish"), ("fr", "French"), ("de", "German"),
   ("it", "Italian"), ("pt", "Portuguese"), ("pl", "Polish"), ("hi", "Hindi"),
   ("ar", "Arabic"), ("zh", "Chinese"), ("ja", "Japanese"), ("ko", "Korean"),
   ("nl", "Dutch"), ("ru", "Russian"), ("sv", "Swedish"), ("tr", "Turkish"),
   ("uk", "Ukrainian"), ("vi", "Vietnamese"), ("id", "Indonesian"),
   ("fil", "Filipino"), ("ta", "Tamil"), ("te", "Telugu"), ("cs", "Czech"),
   ("da", "Danish"), ("fi", "Finnish"), ("el", "Greek"), ("hu", "Hungarian"),
   ("no", "Norwegian"), ("ro", "Romanian"), ("sk", "Slovak")]

/-- `getLanguageDisplayName` from `scraperService.js`
(`LANGUAGE_LABELS[code] || code`). -/
def getLanguageDisplayName (code : String) : String :=
  match LANGUAGE_LABELS.find? (fun p => p.1 == code) with
  | some p => p.2
  | none => code

/-- `buildDiagnosisTranslationPrompt` from `scraperService.js`. -/
def buildDiagnosisTranslationPrompt (condition reasoning targetLanguageCode : String) : String :=
  let languageName := getLanguageDisplayName targetLanguageCode
  "Translate the following medical triage fields into " ++ languageName ++
  ".\n\nReturn ONLY strict JSON in this format:\n\x7b\n  \"condition\": \"...\",\n  \"reasoning\": \"...\"\n\x7d\n\nRules:\n- Translate faithfully.\n- Keep clinical meaning intact.\n- Do not add advice.\n- No markdown or extra text.\n\nInput:\ncondition: " ++
  condition ++ "\nreasoning: " ++ reasoning

/-- `AUDIO_TRANSCRIBE_PROMPT` from `scraperService.js`. -/
def AUDIO_TRANSCRIBE_PROMPT : String :=
  "You are a medical intake transcription assistant.\n\nYou are given an audio recording of a patient describing symptoms.\n\nReturn ONLY strict JSON in this format:\n\x7b\n  \"symptomsText\": \"...\",\n  \"languageCode\": \"en\"\n\x7d\n\nRules:\n- Transcribe what the user said about symptoms as accurately as possible into symptomsText.\n- Keep symptomsText in the same language spoken by the user.\n- languageCode must be lowercase ISO 639-1 and one of: " ++
  joinSep ", " SUPPORTED_LANGUAGES ++
  ".\n- If unsure, use \"en\".\n- Do NOT include markdown, code fences, or text outside JSON."

/-- `AUDIO_LANGUAGE_DETECT_PROMPT` from `scraperService.js`. -/
def AUDIO_LANGUAGE_DETECT_PROMPT : String :=
  "Identify the primary spoken language in this audio clip.\n\nReturn ONLY strict JSON in this format:\n\x7b\n  \"languageCode\": \"en\"\n\x7d\n\nRules:\n- languageCode must be lowercase ISO 639-1.\n- Choose only from: " ++
  joinSep ", " SUPPORTED_LANGUAGES ++
  ".\n- Do not default to English if another language is clearly spoken.\n- Telugu must be returned as \"te\".\n- Do NOT include markdown, code fences, or extra text."

/-- `getCandidateModels` from `scraperService.js`; `cfg` models
`process.env.GEMINI_MODEL || process.env.GEMINI_MODELS`. -/
def getCandidateModels (cfg : Option String) : List String :=
  match cfg with
  | some s =>
    if jsTrim s ≠ "" then ((jsSplit s ',').map jsTrim).filter (· ≠ "")
    else ["gemini-2.5-flash", "gemini-2.0-flash", "gemini-flash-latest"]
  | none => ["gemini-2.5-flash", "gemini-2.0-flash", "gemini-flash-latest"]

/-- `getImageCandidateModels` from `scraperService.js`; `cfg` models
`process.env.GEMINI_IMAGE_MODEL || process.env.GEMINI_IMAGE_MODELS`. -/
def getImageCandidateModels (cfg : Option String) : List String :=
  match cfg with
  | some s =>
    if jsTrim s ≠ "" then ((jsSplit s ',').map jsTrim).filter (· ≠ "")
    else ["gemini-2.5-flash", "gemini-2.5-flash-image", "gemini-2.0-flash"]
  | none => ["gemini-2.5-flash", "gemini-2.5-flash-image", "gemini-2.0-flash"]

/-! ## Request payloads -/

/-- An inline binary attachment as sent to the model
(`\x7b inlineData: \x7b mimeType, data \x7d \x7d`). -/
structure InlineData where
  mimeType : String
  data : String
  deriving DecidableEq, Repr

/-- A `generateContent` request payload: the prompt text of the single text
part, the optional inline attachment, and the generation temperature in
tenths (`0.2` → `2`, `0.1` → `1`, `0` → `0`; every payload built by the
service sets `responseMimeType: 'application/json'`). -/
structure GenPayload where
  text : String
  inline : Option InlineData := none
  tempTenths : Nat
  deriving DecidableEq, Repr

/-- An image payload as supplied by the caller of `generateDiagnosis`. -/
structure ImageInput where
  data : String
  mimeType : String
  deriving DecidableEq, Repr

/-- An audio payload as supplied by the caller of
`transcribeSymptomsFromAudio`. -/
structure AudioInput where
  data : String
  mimeType : String
  deriving DecidableEq, Repr

/-- Characters matched by an unflagged JavaScript regex `.`
(everything except line terminators). -/
def regexDotChar (c : Char) : Bool :=
  c.toNat ≠ 0x0A && c.toNat ≠ 0x0D && c.toNat ≠ 0x2028 && c.toNat ≠ 0x2029

/-- The data-URL match `^data:([^;]+);base64,(.+)$` of `normalizeImage`:
returns the embedded MIME type and the base64 payload on a match. -/
def dataUrlMatch (data : String) : Option (String × String) :=
  if jsStartsWith data "data:" then
    let rest := data.data.drop 5
    let m := rest.takeWhile (· ≠ ';')
    if m = [] then none
    else
      match rest.drop m.length with
      | ';' :: after =>
        if "base64,".data.isPrefixOf after then
          let b := after.drop 7
          if b ≠ [] && b.all regexDotChar then some (⟨m⟩, ⟨b⟩) else none
        else none
      | _ => none
  else none

/-- `normalizeImage` from `scraperService.js`: trim and lower-case the
declared MIME type, and if the data is a data-URL, strip the scheme prefix and
prefer its embedded MIME type. -/
def normalizeImage (image : ImageInput) : InlineData :=
  let mimeType := jsToLower (jsTrim image.mimeType)
  let data := jsTrim image.data
  match dataUrlMatch data with
  | some (m, b) => ⟨jsToLower (jsTrim m), b⟩
  | none => ⟨mimeType, data⟩

/-- A character allowed after the slash by the MIME-type regexes
(`[a-z0-9.+-]`). -/
def mimeTailChar (c : Char) : Bool :=
  ('a' ≤ c && c ≤ 'z') || ('0' ≤ c && c ≤ '9') || c = '.' || c = '+' || c = '-'

/-- The test `/^image\/[a-z0-9.+-]+$/i.test(mimeType.trim())` of
`generateDiagnosis` (the `i` flag is modelled by lower-casing first). -/
def isImageMime (s : String) : Bool :=
  let t := jsToLower (jsTrim s)
  jsStartsWith t "image/" && t.data.drop 6 ≠ [] && (t.data.drop 6).all mimeTailChar

/-- The test `/^audio\/[a-z0-9.+-]+$/.test(mimeType)` of
`validateAudioInput` (applied to an already trimmed, lower-cased type). -/
def isAudioMime (s : String) : Bool :=
  jsStartsWith s "audio/" && s.data.drop 6 ≠ [] && (s.data.drop 6).all mimeTailChar

/-! ## Translation, diagnosis and transcription pipelines

Each pipeline is parameterised by the oracle
`env : GenPayload → String → GemOutcome` giving the outcome of one
`generateContent` attempt for a payload and a bound candidate model, and by
the environment-variable model-list overrides. -/

/-- The translation request payload built by `translateDiagnosisFields`
(temperature `0.1`). -/
def translationPayload (condition reasoning targetLanguageCode : String) : GenPayload :=
  ⟨buildDiagnosisTranslationPrompt condition reasoning targetLanguageCode, none, 1⟩

/-- `translateDiagnosisFields` from `scraperService.js`.  Note that a failure
of the underlying `callGeminiJson` is **not** caught here: it propagates to
the caller.  Only a successful call with blank translated fields falls back to
the untranslated diagnosis. -/
def translateDiagnosisFields (env : GenPayload → String → GemOutcome)
    (cfgModels : Option String) (diagnosis : DiagnosisResult)
    (targetLanguageCode : String) : Except JsError DiagnosisResult :=
  if targetLanguageCode = "" ∨ targetLanguageCode = "en" then .ok diagnosis
  else
    match callGeminiJson
        (env (translationPayload diagnosis.condition diagnosis.reasoning targetLanguageCode))
        (getCandidateModels cfgModels) with
    | .error e => .error e
    | .ok parsed =>
      let translatedCondition := getTrimmedStr parsed "condition"
      let translatedReasoning := getTrimmedStr parsed "reasoning"
      if translatedCondition = "" ∨ translatedReasoning = "" then .ok diagnosis
      else .ok { diagnosis with
                  condition := translatedCondition
                  reasoning := translatedReasoning
                  languageCode := targetLanguageCode }

/-- The caller-supplied input of `generateDiagnosis`.  `symptoms = none`
models a missing or non-array value; array elements are modelled as strings
(the JavaScript guard rejects non-string elements the same way it rejects
blank ones). -/
structure DiagnosisInput where
  symptoms : Option (List String) := none
  image : Option ImageInput := none
  languageCode : Option String := none
  deriving DecidableEq, Repr

/-- The `candidateLanguageCode` constant of `generateDiagnosis`: the caller's
language code, trimmed and lower-cased, when present and non-blank. -/
def candidateLanguageCodeOf (languageCode : Option String) : Option String :=
  match languageCode with
  | some s => if jsTrim s ≠ "" then some (jsToLower (jsTrim s)) else none
  | none => none

/-- The `requestedLanguageCode` constant of `generateDiagnosis`: the candidate
code when it belongs to the supported set. -/
def requestedLanguageCodeOf (languageCode : Option String) : Option String :=
  match candidateLanguageCodeOf languageCode with
  | some c => if SUPPORTED_LANGUAGES.contains c then some c else none
  | none => none

/-- The second `try` block of `generateDiagnosis`: contract validation, target
language resolution, and the best-effort translation call; any error escaping
the block is wrapped into a 503 "invalid response" failure. -/
def finishDiagnosis (env : GenPayload → String → GemOutcome) (cfgText : Option String)
    (parsed : Json) (requestedLanguageCode : Option String)
    (fallbackLanguageCode : String) : Except JsError DiagnosisResult :=
  match validateAndNormalize parsed fallbackLanguageCode with
  | .error e =>
    .error ⟨e.message, none, some 503, some "Diagnosis service returned an invalid response"⟩
  | .ok normalized =>
    let targetLanguageCode :=
      requestedLanguageCode.getD
        (if normalized.languageCode ≠ "" then normalized.languageCode
         else fallbackLanguageCode)
    match translateDiagnosisFields env cfgText
        { normalized with languageCode := targetLanguageCode }
        targetLanguageCode with
    | .ok r => .ok r
    | .error e =>
      .error ⟨e.message, none, some 503, some "Diagnosis service returned an invalid response"⟩

/-- `generateDiagnosis` from `scraperService.js`. -/
def generateDiagnosis (env : GenPayload → String → GemOutcome)
    (cfgText cfgImage : Option String) (input : DiagnosisInput) :
    Except JsError DiagnosisResult :=
  let requestedLanguageCode : Option String := requestedLanguageCodeOf input.languageCode
  match input.symptoms with
  | none => .error ⟨"Invalid symptoms input", none, some 400, some "Invalid symptoms input"⟩
  | some symptoms =>
    if ¬ symptoms.all (fun s => jsTrim s ≠ "") then
      .error ⟨"Invalid symptoms input", none, some 400, some "Invalid symptoms input"⟩
    else
      let imageOk : Bool :=
        match input.image with
        | none => true
        | some image => jsTrim image.data ≠ "" && isImageMime image.mimeType
      if ¬ imageOk then
        .error ⟨"Invalid image input", none, some 400, some "Invalid image input"⟩
      else if symptoms.length < 1 ∧ input.image = none then
        .error ⟨"Either symptoms text or an image is required", none, some 400,
                some "Either symptoms text or an image is required"⟩
      else
        let symptomsStr :=
          if symptoms.length > 0 then joinSep ", " (symptoms.map jsTrim)
          else "No textual symptoms provided."
        let imageGuidance :=
          match input.image with
          | some _ => "An image is attached. Use visual evidence from the image together with symptoms."
          | none => "No image is attached. Use only symptoms text."
        let autoDetectedLanguageCode := detectLanguageFromSymptoms symptoms
        let fallbackLanguageCode := requestedLanguageCode.getD autoDetectedLanguageCode
        let languageInstruction :=
          match requestedLanguageCode with
          | some rc =>
            if rc = "en" then
              "Return \"condition\" and \"reasoning\" in English and set \"languageCode\" to \"en\"."
            else
              "Return \"condition\" and \"reasoning\" in " ++ getLanguageDisplayName rc ++
              " and set \"languageCode\" to \"" ++ rc ++ "\"."
          | none =>
            "Detect the primary language used in symptoms and return \"condition\" and \"reasoning\" in that same language. Set \"languageCode\" to one of: " ++
            joinSep ", " SUPPORTED_LANGUAGES ++ ". If uncertain, use \"en\"."
        let prompt :=
          jsReplaceFirst PROMPT_TEMPLATE "\x7b\x7bsymptoms\x7d\x7d" symptomsStr ++
          "\n\n" ++ imageGuidance ++ "\n" ++ languageInstruction
        let payload : GenPayload :=
          match input.image with
          | some image => ⟨prompt, some (normalizeImage image), 2⟩
          | none => ⟨prompt, none, 2⟩
        let models :=
          match input.image with
          | some _ => getImageCandidateModels cfgImage
          | none => getCandidateModels cfgText
        match callGeminiJson (env payload) models with
        | .error e =>
          if input.image.isSome && jsIncludes (jsToLower e.message) "image" then
            .error ⟨"Uploaded image could not be processed", none, some 400,
                    some "Uploaded image could not be processed. Try a clear JPG or PNG image."⟩
          else
            .error ⟨e.message, none, some 503, some "Diagnosis service returned malformed output"⟩
        | .ok parsed =>
          finishDiagnosis env cfgText parsed requestedLanguageCode fallbackLanguageCode

/-- A transcription result (`\x7b symptomsText, languageCode \x7d`). -/
structure TranscriptionResult where
  symptomsText : String
  languageCode : String
  deriving DecidableEq, Repr

/-- The transcription request payload of `transcribeSymptomsFromAudio`
(temperature `0.1`). -/
def transcribePayload (mimeType data : String) : GenPayload :=
  ⟨AUDIO_TRANSCRIBE_PROMPT ++
    "\n\nImportant: NEVER translate to English. Preserve the spoken language exactly.",
   some ⟨mimeType, data⟩, 1⟩

/-- The language-detection request payload of `transcribeSymptomsFromAudio`
(temperature `0`). -/
def languageDetectPayload (mimeType data : String) : GenPayload :=
  ⟨AUDIO_LANGUAGE_DETECT_PROMPT, some ⟨mimeType, data⟩, 0⟩

/-- The language code the transcription call itself yields: the payload's
`languageCode` (trimmed, lower-cased) when supported, else the default. -/
def transcriptionLangOf (parsed : Json) : String :=
  let rawLang :=
    match parsed.getField "languageCode" with
    | some (.str s) => jsToLower (jsTrim s)
    | _ => ""
  if SUPPORTED_LANGUAGES.contains rawLang then rawLang
  else DEFAULT_LANGUAGE_CODE

/-- The body of `transcribeSymptomsFromAudio` after input validation: the
transcription call, the best-effort dedicated language-detection call, the
script-heuristic override, and the final blank-transcript check. -/
def resolveTranscription (env : GenPayload → String → GemOutcome)
    (cfgModels : Option String) (normalizedMimeType audioData : String) :
    Except JsError TranscriptionResult :=
  match callGeminiJson (env (transcribePayload normalizedMimeType audioData))
      (getCandidateModels cfgModels) with
  | .error e => .error e
  | .ok parsed =>
    let symptomsText := getTrimmedStr parsed "symptomsText"
    let lang0 := transcriptionLangOf parsed
    let lang1 :=
      match callGeminiJson (env (languageDetectPayload normalizedMimeType audioData))
          (getCandidateModels cfgModels) with
      | .error _ => lang0
      | .ok langParsed =>
        let languageFromAudio :=
          match langParsed.getField "languageCode" with
          | some (.str s) => jsToLower (jsTrim s)
          | _ => ""
        if SUPPORTED_LANGUAGES.contains languageFromAudio then languageFromAudio
        else lang0
    let lang2 :=
      if lang1 = "en" && symptomsText ≠ "" then
        let scriptGuess := detectLanguageFromSymptoms [symptomsText]
        if scriptGuess ≠ "" && scriptGuess ≠ "en" then scriptGuess else lang1
      else lang1
    if symptomsText = "" then
      .error ⟨"Transcription failed", none, some 503,
              some "Transcription service returned invalid output"⟩
    else .ok ⟨symptomsText, lang2⟩

/-- `transcribeSymptomsFromAudio` from `scraperService.js`
(`input = none` models a missing or non-object `audio`). -/
def transcribeSymptomsFromAudio (env : GenPayload → String → GemOutcome)
    (cfgModels : Option String) (input : Option AudioInput) :
    Except JsError TranscriptionResult :=
  match input with
  | none => .error ⟨"Invalid audio input", none, some 400, some "Invalid audio input"⟩
  | some audio =>
    if jsTrim audio.data = "" then
      .error ⟨"Invalid audio input", none, some 400, some "Invalid audio input"⟩
    else
      let rawMimeType := jsToLower (jsTrim audio.mimeType)
      let mimeType := jsTrim ((jsSplit rawMimeType ';').headD "")
      if ¬ isAudioMime mimeType then
        .error ⟨"Invalid audio MIME type", none, some 400, some "Invalid audio MIME type"⟩
      else
        resolveTranscription env cfgModels mimeType (jsTrim audio.data)

/-! ## Wait-time resolution (`waittimeService.js`) -/

/-- A facility as supplied to `getWaitTimes` (`\x7b name, website?, ... \x7d`). -/
structure Facility where
  name : String
  website : Option String := none
  deriving DecidableEq, Repr

/-- A facility enriched with `waitTime` and `waitTimeEstimated`. -/
structure FacilityWaitEstimate where
  name : String
  website : Option String
  waitTime : Int
  waitTimeEstimated : Bool
  deriving DecidableEq, Repr

/-- `generateSyntheticWait` from `waittimeService.js`, with the ambient
`new Date().getHours()` made an explicit `hour` parameter.  The source
computes `Math.round(15 + ((seed * 9301 + 49297) % 233280) / 233280 * 75)`
in IEEE doubles; we evaluate the same expression in exact arithmetic
(`Math.round(x) = ⌊x + 1/2⌋` for `x ≥ 0`), which agrees except for possible
one-ulp effects exactly at `.5` ties and is identical on the properties
stated below. -/
def generateSyntheticWait (hospitalName : String) (hour : Nat) : Nat :=
  let seed := (hospitalName.data.map Char.toNat).sum + hour
  let m := (seed * 9301 + 49297) % 233280
  (7231680 + 150 * m) / 466560

/-- `getWaitTimes` from `waittimeService.js`.  The oracle `scrape` models
`await scrapeWaitTime(name, website || null)` for one facility: `.error` is a
rejected promise, `.ok none` is a `null` resolution.  `Promise.all` preserves
the order and cardinality of its input, so the batch is a `List.map`. -/
def getWaitTimes (scrape : Facility → Except Unit (Option Int)) (hour : Nat)
    (hospitals : List Facility) : List FacilityWaitEstimate :=
  hospitals.map (fun hospital =>
    let scraped : Option Int :=
      match scrape hospital with
      | .ok v => v
      | .error _ => none
    match scraped with
    | some w => ⟨hospital.name, hospital.website, w, false⟩
    | none => ⟨hospital.name, hospital.website,
               (generateSyntheticWait hospital.name hour : Int), true⟩)

/-! ## Fuzzy name matching (`scraperService.js`, scraping half) -/

/-- Collapse runs of spaces to a single space. -/
def squashSpaces : List Char → List Char
  | [] => []
  | a :: rest =>
    match rest with
    | b :: _ => if a = ' ' && b = ' ' then squashSpaces rest else a :: squashSpaces rest
    | [] => [a]

/-- `normalizeName` from `scraperService.js`: lower-case, strip every
character outside `[a-z0-9\s]`, collapse whitespace runs to one space, trim. -/
def normalizeName (name : String) : String :=
  let kept := (jsToLower name).data.filter
    (fun c => ('a' ≤ c && c ≤ 'z') || ('0' ≤ c && c ≤ '9') || jsIsWs c)
  let spaced := kept.map (fun c => if jsIsWs c then ' ' else c)
  jsTrim ⟨squashSpaces spaced⟩

/-- The word set `new Set(s.split(' ').filter((w) => w.length > 2))` used by
`overlapScore`, as an order-preserving deduplicated list. -/
def scoreWords (s : String) : List String :=
  ((jsSplit s ' ').filter (fun w => w.length > 2)).dedup

/-- `overlapScore` from `scraperService.js`: shared-word count over the size
of the larger word set, `0` when either set is empty. -/
def overlapScore (a b : String) : ℚ :=
  let wordsA := scoreWords a
  let wordsB := scoreWords b
  if wordsA.length = 0 ∨ wordsB.length = 0 then 0
  else ((wordsA.filter (fun w => wordsB.contains w)).length : ℚ) /
       (max wordsA.length wordsB.length : ℚ)

/-- Lookup in the scraped `Map<normalizedName, minutes>`, modelled as an
association list in insertion order (a `Map` never holds duplicate keys). -/
def mapGet (m : List (String × Int)) (k : String) : Option Int :=
  (m.find? (fun p => p.1 == k)).map (·.2)

/-- The best-overlap scan of `fuzzyMatch` (`bestScore` starts at `0`,
`bestMatch` at `null`; an entry is taken only when its score strictly exceeds
both the running best and `0.5`). -/
def fuzzyMatchLoop (normalized : String) :
    List (String × Int) → ℚ → Option Int → Option Int
  | [], _, best => best
  | (key, minutes) :: rest, bestScore, best =>
    let score := overlapScore normalized key
    if score > bestScore ∧ score > 1 / 2 then
      fuzzyMatchLoop normalized rest score (some minutes)
    else fuzzyMatchLoop normalized rest bestScore best

/-- `fuzzyMatch` from `scraperService.js`: exact normalized lookup first,
otherwise the best word-overlap candidate above the `0.5` threshold. -/
def fuzzyMatch (hospitalName : String) (waitTimesMap : List (String × Int)) : Option Int :=
  let normalized := normalizeName hospitalName
  match mapGet waitTimesMap normalized with
  | some v => some v
  | none => fuzzyMatchLoop normalized waitTimesMap 0 none

/-! ## Concrete fixtures

Closed oracle environments and inputs used to instantiate the verified
properties on concrete data. -/

/-- Fixture: candidates `mA`, `mB` fail with "model not found" classified
errors, every other candidate succeeds. -/
def fxChainEnv : String → GemOutcome := fun m =>
  if m = "mA" then .failure ⟨"model mA not found", some 404, none, none⟩
  else if m = "mB" then .failure ⟨"mB is not supported for generateContent", none, none, none⟩
  else .success "\x7b\"ok\": true\x7d"

/-- Fixture: every candidate fails with a "model not found" classified error. -/
def fxChainEnvAllNotFound : String → GemOutcome := fun m =>
  .failure ⟨"model " ++ m ++ " not found", some 404, none, none⟩

/-- Fixture: candidate `mA` fails with a non-"not found" error. -/
def fxChainEnvAbort : String → GemOutcome := fun m =>
  if m = "mA" then .failure ⟨"resource exhausted", some 429, none, none⟩
  else .success "\x7b\"ok\": true\x7d"

/-- Fixture: the primary diagnosis call (temperature `0.2`) succeeds with a
valid Spanish-tagged payload; every other call (in particular the translation
call, temperature `0.1`) fails with a generic upstream error. -/
def fxEnvTranslationThrow : GenPayload → String → GemOutcome := fun p _ =>
  if p.tempTenths = 2 then
    .success "\x7b\"condition\":\"Flu\",\"severity\":2,\"reasoning\":\"ok\",\"languageCode\":\"es\"\x7d"
  else .failure ⟨"boom", none, none, none⟩

/-- Fixture: the primary diagnosis call succeeds; the translation call
succeeds but returns a blank `condition`. -/
def fxEnvTranslationEmpty : GenPayload → String → GemOutcome := fun p _ =>
  if p.tempTenths = 2 then
    .success "\x7b\"condition\":\"Flu\",\"severity\":2,\"reasoning\":\"ok\",\"languageCode\":\"es\"\x7d"
  else .success "\x7b\"condition\":\"\",\"reasoning\":\"bien\"\x7d"

/-- Fixture: the transcription call (temperature `0.1`) returns a Telugu
transcript mislabelled `"en"`; the dedicated language-detection call
(temperature `0`) fails. -/
def fxEnvTelugu : GenPayload → String → GemOutcome := fun p _ =>
  if p.tempTenths = 1 then
    .success "\x7b\"symptomsText\":\"జ్వరం మరియు తలనొప్పి\",\"languageCode\":\"en\"\x7d"
  else .failure ⟨"detect down", none, none, none⟩

/-- Fixture: the transcription call returns a payload with no
`symptomsText`; the language-detection call fails. -/
def fxEnvNoTranscript : GenPayload → String → GemOutcome := fun p _ =>
  if p.tempTenths = 1 then .success "\x7b\"languageCode\":\"en\"\x7d"
  else .failure ⟨"detect down", none, none, none⟩

/-- Fixture: the transcription call returns a transcript with no
`languageCode`; the language-detection call fails. -/
def fxEnvNoLangField : GenPayload → String → GemOutcome := fun p _ =>
  if p.tempTenths = 1 then .success "\x7b\"symptomsText\":\"mild fever\"\x7d"
  else .failure ⟨"detect down", none, none, none⟩

/-- Fixture: a five-facility batch whose third facility's scrape rejects
(times out) and whose first facility scrapes a real value. -/
def fxBatch : List Facility :=
  [⟨"Alpha Hospital", none⟩, ⟨"Beta Medical Center", none⟩,
   ⟨"Gamma Hospital", some "https://gamma.example"⟩,
   ⟨"Delta Clinic", none⟩, ⟨"Epsilon Hospital", none⟩]

/-- Fixture scrape oracle for `fxBatch`: facility #1 resolves a real value,
facility #3 rejects, the others resolve `null`. -/
def fxScrape : Facility → Except Unit (Option Int) := fun f =>
  if f.name = "Alpha Hospital" then .ok (some 12)
  else if f.name = "Gamma Hospital" then .error ()
  else .ok none

/-! ## Specification-side reformulations -/

/-- The script ranges tested by `detectLanguageFromSymptoms`, in source
order: Arabic, Cyrillic, CJK-Han, Japanese kana, Korean, Devanagari, Telugu. -/
def scriptPriority : List (Nat × Nat × String) :=
  [(0x600, 0x6FF, "ar"), (0x400, 0x4FF, "ru"), (0x4E00, 0x9FFF, "zh"),
   (0x3040, 0x30FF, "ja"), (0xAC00, 0xD7AF, "ko"), (0x900, 0x97F, "hi"),
   (0xC00, 0xC7F, "te")]

/-- Reformulation of the claim about `detectLanguageFromSymptoms`: the result
is the language of the first range in the priority list with a character
present in the joined text, else the `"en"` default. -/
def detectLanguageSpec (symptoms : List String) : String :=
  match scriptPriority.find? (fun r => hasCharIn r.1 r.2.1 (joinSep " " symptoms)) with
  | some r => r.2.2
  | none => "en"

/-! # Verified properties

Shared helper lemmas first, then one theorem per specification claim. -/

/-- Bounds of the synthetic wait-time formula for any seed residue. -/
theorem syntheticWait_bounds (m : Nat) (hm : m < 233280) :
    15 ≤ (7231680 + 150 * m) / 466560 ∧ (7231680 + 150 * m) / 466560 ≤ 90 := by
  constructor
  · rw [Nat.le_div_iff_mul_le (by norm_num)]
    omega
  · have h91 : (7231680 + 150 * m) / 466560 < 91 := by
      rw [Nat.div_lt_iff_lt_mul (by norm_num)]
      omega
    omega

/-- C7: `generateSyntheticWait` always lands in `[15, 90]`; it is a pure
function of the hospital name and the hour of day (so two calls with the same
name in the same hour agree); and different hours can produce different
values. -/
theorem generateSyntheticWait_spec :
    (∀ name hour, 15 ≤ generateSyntheticWait name hour ∧ generateSyntheticWait name hour ≤ 90) ∧
    (∀ name hour₁ hour₂, hour₁ = hour₂ →
      generateSyntheticWait name hour₁ = generateSyntheticWait name hour₂) ∧
    (∃ name hour₁ hour₂, hour₁ ≠ hour₂ ∧
      generateSyntheticWait name hour₁ ≠ generateSyntheticWait name hour₂) := by
  refine ⟨?_, ?_, ?_⟩
  · intro name hour
    exact syntheticWait_bounds _ (Nat.mod_lt _ (by norm_num))
  · intro name hour₁ hour₂ h
    rw [h]
  · exact ⟨"General Hospital", 0, 1, by decide, by decide⟩

/-- C7 witness: concrete instantiation of the determinism clause at
"General Hospital", hour 9. -/
theorem generateSyntheticWait_spec_witness :
    (9 : Nat) = 9 ∧
    generateSyntheticWait "General Hospital" 9 = generateSyntheticWait "General Hospital" 9 :=
  ⟨rfl, generateSyntheticWait_spec.2.1 "General Hospital" 9 9 rfl⟩

/-- C4: `getWaitTimes` returns exactly one output per input facility, in
input order, none dropped; the original facility fields are preserved; a
facility whose scrape yields a real value is tagged `waitTimeEstimated =
false` with that value, and a facility whose scrape resolves `null` or
rejects receives the synthetic estimate tagged `waitTimeEstimated = true` —
no per-facility failure escapes the batch. -/
theorem getWaitTimes_spec (scrape : Facility → Except Unit (Option Int)) (hour : Nat)
    (hospitals : List Facility) :
    (getWaitTimes scrape hour hospitals).length = hospitals.length ∧
    ∀ (i : Nat) (f : Facility), hospitals[i]? = some f →
      ∃ o, (getWaitTimes scrape hour hospitals)[i]? = some o ∧
        o.name = f.name ∧ o.website = f.website ∧
        ((∃ w, scrape f = .ok (some w) ∧ o.waitTime = w ∧ o.waitTimeEstimated = false) ∨
         ((scrape f = .ok none ∨ scrape f = .error ()) ∧
          o.waitTime = generateSyntheticWait f.name hour ∧ o.waitTimeEstimated = true)) := by
  constructor
  · simp [getWaitTimes]
  · intro i f hf
    unfold getWaitTimes
    rw [List.getElem?_map, hf]
    simp only [Option.map_some]
    refine ⟨_, rfl, ?_⟩
    cases hs : scrape f with
    | ok v =>
      cases v with
      | some w => simp [hs]
      | none => simp [hs]
    | error u => cases u; simp [hs]

/-- C4 witness: the five-facility fixture batch, whose third facility's
scrape rejects, still yields five results with the third tagged
`waitTimeEstimated = true`. -/
theorem getWaitTimes_spec_witness :
    fxBatch[2]? = some ⟨"Gamma Hospital", some "https://gamma.example"⟩ ∧
    (getWaitTimes fxScrape 10 fxBatch).length = 5 ∧
    ∃ o, (getWaitTimes fxScrape 10 fxBatch)[2]? = some o ∧
      o.name = "Gamma Hospital" ∧ o.waitTimeEstimated = true := by
  obtain ⟨hlen, hidx⟩ := getWaitTimes_spec fxScrape 10 fxBatch
  refine ⟨rfl, by rw [hlen]; rfl, ?_⟩
  obtain ⟨o, ho, hname, hweb, hcase⟩ :=
    hidx 2 ⟨"Gamma Hospital", some "https://gamma.example"⟩ rfl
  refine ⟨o, ho, hname, ?_⟩
  rcases hcase with ⟨w, hw, _, _⟩ | ⟨_, _, hest⟩
  · simp [fxScrape] at hw
  · exact hest

/-- `detectLanguageFromSymptoms` only produces codes from the supported set. -/
theorem detectLanguage_mem_supported (symptoms : List String) :
    detectLanguageFromSymptoms symptoms ∈ SUPPORTED_LANGUAGES := by
  unfold detectLanguageFromSymptoms
  dsimp only
  split_ifs <;> simp [SUPPORTED_LANGUAGES, DEFAULT_LANGUAGE_CODE]

/-- C10: `detectLanguageFromSymptoms` agrees with the priority-list
reformulation (first matching script range in the fixed order Arabic,
Cyrillic, Han, kana, Korean, Devanagari, Telugu wins, else `"en"`); its
result is always in the supported set; and the result depends only on which
ranges are present in the joined text, not on character positions. -/
theorem detectLanguageFromSymptoms_spec :
    (∀ symptoms, detectLanguageFromSymptoms symptoms = detectLanguageSpec symptoms) ∧
    (∀ symptoms, detectLanguageFromSymptoms symptoms ∈ SUPPORTED_LANGUAGES) ∧
    (∀ s₁ s₂,
      (∀ r ∈ scriptPriority,
        hasCharIn r.1 r.2.1 (joinSep " " s₁) = hasCharIn r.1 r.2.1 (joinSep " " s₂)) →
      detectLanguageFromSymptoms s₁ = detectLanguageFromSymptoms s₂) := by
  refine ⟨?_, detectLanguage_mem_supported, ?_⟩
  · intro s
    unfold detectLanguageFromSymptoms detectLanguageSpec scriptPriority
    dsimp only
    simp only [List.find?]
    split_ifs <;> simp_all [DEFAULT_LANGUAGE_CODE]
  · intro s₁ s₂ h
    have e1 := h (0x600, 0x6FF, "ar") (by simp [scriptPriority])
    have e2 := h (0x400, 0x4FF, "ru") (by simp [scriptPriority])
    have e3 := h (0x4E00, 0x9FFF, "zh") (by simp [scriptPriority])
    have e4 := h (0x3040, 0x30FF, "ja") (by simp [scriptPriority])
    have e5 := h (0xAC00, 0xD7AF, "ko") (by simp [scriptPriority])
    have e6 := h (0x900, 0x97F, "hi") (by simp [scriptPriority])
    have e7 := h (0xC00, 0xC7F, "te") (by simp [scriptPriority])
    unfold detectLanguageFromSymptoms
    dsimp only
    rw [e1, e2, e3, e4, e5, e6, e7]

/-- C10 witness: position-independence instantiated on two Telugu-containing
symptom lists with the Telugu character at different positions. -/
theorem detectLanguageFromSymptoms_spec_witness :
    (∀ r ∈ scriptPriority,
      hasCharIn r.1 r.2.1 (joinSep " " ["జabc"]) =
      hasCharIn r.1 r.2.1 (joinSep " " ["abc", "xజ"])) ∧
    detectLanguageFromSymptoms ["జabc"] = detectLanguageFromSymptoms ["abc", "xజ"] :=
  ⟨by decide, detectLanguageFromSymptoms_spec.2.2 _ _ (by decide)⟩

/-- The best-overlap scan never changes its accumulator when every remaining
score is at or below the threshold. -/
theorem fuzzyMatchLoop_all_le (n : String) :
    ∀ (l : List (String × Int)) (b : ℚ) (best : Option Int),
      (∀ p ∈ l, overlapScore n p.1 ≤ 1 / 2) →
      fuzzyMatchLoop n l b best = best := by
  intro l
  induction l with
  | nil => intro b best _; rfl
  | cons p rest ih =>
    intro b best h
    obtain ⟨key, minutes⟩ := p
    have hle : overlapScore n key ≤ 1 / 2 := h (key, minutes) (by simp)
    unfold fuzzyMatchLoop
    rw [if_neg (by rintro ⟨-, h2⟩; linarith)]
    exact ih b best (fun q hq => h q (by simp [hq]))

/-- Soundness of the best-overlap scan: a `some` result is either the
accumulator passed in (and nothing on the list beat it), or comes from a list
entry that strictly exceeds both the threshold and the running best and whose
score is maximal among above-threshold entries. -/
theorem fuzzyMatchLoop_sound (n : String) :
    ∀ (l : List (String × Int)) (b : ℚ) (best : Option Int) (v : Int),
      fuzzyMatchLoop n l b best = some v →
      (best = some v ∧ ∀ q ∈ l, ¬ (overlapScore n q.1 > b ∧ overlapScore n q.1 > 1 / 2)) ∨
      (∃ p ∈ l, p.2 = v ∧ overlapScore n p.1 > 1 / 2 ∧ overlapScore n p.1 > b ∧
        ∀ q ∈ l, overlapScore n q.1 > 1 / 2 → overlapScore n q.1 ≤ overlapScore n p.1) := by
  intro l
  induction l with
  | nil =>
    intro b best v h
    exact .inl ⟨h, by simp⟩
  | cons hd rest ih =>
    intro b best v h
    obtain ⟨key, minutes⟩ := hd
    unfold fuzzyMatchLoop at h
    by_cases hc : overlapScore n key > b ∧ overlapScore n key > 1 / 2
    · rw [if_pos hc] at h
      rcases ih (overlapScore n key) (some minutes) v h with ⟨hb, hrest⟩ | ⟨p, hp, hpv, hp2, hpb, hmax⟩
      · refine .inr ⟨(key, minutes), by simp, by simpa using hb, hc.2, hc.1, ?_⟩
        rintro q hq hq2
        rcases List.mem_cons.mp hq with rfl | hq'
        · exact le_refl _
        · by_contra hgt
          exact hrest q hq' ⟨by linarith, hq2⟩
      · refine .inr ⟨p, List.mem_cons_of_mem _ hp, hpv, hp2, by linarith [hc.1], ?_⟩
        rintro q hq hq2
        rcases List.mem_cons.mp hq with rfl | hq'
        · linarith
        · exact hmax q hq' hq2
    · rw [if_neg hc] at h
      rcases ih b best v h with ⟨hb, hrest⟩ | ⟨p, hp, hpv, hp2, hpb, hmax⟩
      · refine .inl ⟨hb, ?_⟩
        rintro q hq
        rcases List.mem_cons.mp hq with rfl | hq'
        · exact hc
        · exact hrest q hq'
      · refine .inr ⟨p, List.mem_cons_of_mem _ hp, hpv, hp2, hpb, ?_⟩
        rintro q hq hq2
        rcases List.mem_cons.mp hq with rfl | hq'
        · by_contra hgt
          push_neg at hgt
          exact hc ⟨by linarith, hq2⟩
        · exact hmax q hq' hq2

/-- C9: `fuzzyMatch` returns the exact normalized-key entry when one exists;
with no exact match it returns `none` when every candidate scores at or below
`0.5`, and otherwise any `some` result comes from a candidate whose
word-overlap score exceeds `0.5` and is maximal among above-threshold
candidates; concretely, "st. mary\x27s hospital" normalizes to and matches the
cache key "st marys hospital", while it scores `0` against
"childrens medical center" and does not match it. -/
theorem fuzzyMatch_spec :
    (∀ name map v, mapGet map (normalizeName name) = some v → fuzzyMatch name map = some v) ∧
    (∀ name map, mapGet map (normalizeName name) = none →
      (∀ p ∈ map, overlapScore (normalizeName name) p.1 ≤ 1 / 2) →
      fuzzyMatch name map = none) ∧
    (∀ name map v, mapGet map (normalizeName name) = none →
      fuzzyMatch name map = some v →
      ∃ p ∈ map, p.2 = v ∧ overlapScore (normalizeName name) p.1 > 1 / 2 ∧
        ∀ q ∈ map, overlapScore (normalizeName name) q.1 > 1 / 2 →
          overlapScore (normalizeName name) q.1 ≤ overlapScore (normalizeName name) p.1) ∧
    normalizeName "st. mary\x27s hospital" = "st marys hospital" ∧
    fuzzyMatch "st. mary\x27s hospital" [("st marys hospital", 42)] = some 42 ∧
    overlapScore (normalizeName "st. mary\x27s hospital") "childrens medical center" = 0 ∧
    fuzzyMatch "st. mary\x27s hospital" [("childrens medical center", 7)] = none := by
  have hexact : ∀ (name : String) (map : List (String × Int)) (v : Int),
      mapGet map (normalizeName name) = some v → fuzzyMatch name map = some v := by
    intro name map v h
    unfold fuzzyMatch
    simp [h]
  have hnone : ∀ (name : String) (map : List (String × Int)),
      mapGet map (normalizeName name) = none →
      (∀ p ∈ map, overlapScore (normalizeName name) p.1 ≤ 1 / 2) →
      fuzzyMatch name map = none := by
    intro name map h hall
    unfold fuzzyMatch
    simp only [h]
    exact fuzzyMatchLoop_all_le _ map 0 none hall
  have hscore0 : overlapScore (normalizeName "st. mary\x27s hospital") "childrens medical center" = 0 := by
    have h0 : overlapScore (normalizeName "st. mary\x27s hospital") "childrens medical center" =
        (((0 : Nat) : ℚ) / ((max (2 : Nat) (3 : Nat) : Nat) : ℚ)) := rfl
    rw [h0]
    norm_num
  refine ⟨hexact, hnone, ?_, by decide, hexact _ _ 42 (by decide), hscore0, ?_⟩
  · intro name map v h hm
    unfold fuzzyMatch at hm
    simp only [h] at hm
    rcases fuzzyMatchLoop_sound _ map 0 none v hm with ⟨hbest, -⟩ | ⟨p, hp, hpv, hp2, -, hmax⟩
    · exact absurd hbest (by simp)
    · exact ⟨p, hp, hpv, hp2, hmax⟩
  · refine hnone _ _ (by decide) ?_
    intro p hp
    rw [List.mem_singleton] at hp
    subst hp
    rw [hscore0]
    norm_num

/-- C9 witness: the exact-match clause instantiated on the concrete
"st marys hospital" cache. -/
theorem fuzzyMatch_spec_witness :
    mapGet [("st marys hospital", 42)] (normalizeName "st. mary\x27s hospital") = some 42 ∧
    fuzzyMatch "st. mary\x27s hospital" [("st marys hospital", 42)] = some 42 :=
  ⟨by decide, fuzzyMatch_spec.1 "st. mary\x27s hospital" [("st marys hospital", 42)] 42 (by decide)⟩

/-- Dropping a prefix satisfying `p` stops at the head of `ys` when that head
falsifies `p`. -/
theorem dropWhile_append_keep (p : Char → Bool) (xs : List Char) {c : Char} {cs : List Char}
    (hc : p c = false) :
    List.dropWhile p (xs ++ c :: cs) = List.dropWhile p xs ++ c :: cs := by
  induction xs with
  | nil => simp [List.dropWhile, hc]
  | cons a as ih =>
    by_cases h : p a
    · simp [List.dropWhile, h, ih]
    · simp [List.dropWhile, h]

/-- `indexOf` over an append whose left part avoids `c` and whose right part
starts with `c`. -/
theorem idxOfChar_append_head (c : Char) (xs : List Char) {ys : List Char}
    (hy : ys.head? = some c) (hx : ∀ a ∈ xs, a ≠ c) :
    idxOfChar c (xs ++ ys) = some xs.length := by
  induction xs with
  | nil =>
    cases ys with
    | nil => cases hy
    | cons b bs =>
      simp only [List.head?] at hy
      injection hy with hb
      simp [idxOfChar, hb]
  | cons a as ih =>
    have ha : a ≠ c := hx a (by simp)
    simp only [List.cons_append, idxOfChar, if_neg ha, List.append_eq]
    rw [ih (fun x hmem => hx x (by simp [hmem]))]
    rfl

/-- C8: `parseJsonFromText` is the two-stage extraction: a direct parse of
the trimmed text wins when it succeeds; empty trimmed text is a classified
error; when the direct parse fails, a text whose trimmed form is brace-free
noise around a parsable brace-delimited object yields exactly that object
(recovering any valid payload from surrounding prose or code fences); and
when the brace substring also fails to parse, or no brace pair exists, the
result is a classified error. -/
theorem parseJsonFromText_spec :
    (∀ text v, parseJson (jsTrim text) = some v → parseJsonFromText text = .ok v) ∧
    (∀ text, jsTrim text = "" →
      parseJsonFromText text = .error ⟨"Gemini returned empty text", none, none, none⟩) ∧
    (∀ text, parseJson (jsTrim text) = none →
      (∀ st en, idxOfChar '{' (jsTrim text).data = some st →
        lastIdxOfChar '}' (jsTrim text).data = some en → st < en →
        parseJson ⟨((jsTrim text).data.drop st).take (en + 1 - st)⟩ = none) →
      ∃ e, parseJsonFromText text = .error e) ∧
    (∀ text (noiseL noiseR : List Char) (mid : String) v,
      (∀ c ∈ noiseL, c ≠ '{' ∧ c ≠ '}') →
      (∀ c ∈ noiseR, c ≠ '{' ∧ c ≠ '}') →
      mid.data.head? = some '{' →
      mid.data.getLast? = some '}' →
      (jsTrim text).data = noiseL ++ mid.data ++ noiseR →
      parseJson (jsTrim text) = none →
      parseJson mid = some v →
      parseJsonFromText text = .ok v) := by
  refine ⟨?_, ?_, ?_, ?_⟩
  · intro text v h
    have hne : jsTrim text ≠ "" := by
      intro h0
      rw [h0, show parseJson "" = none from rfl] at h
      cases h
    unfold parseJsonFromText
    dsimp only
    rw [if_neg hne, h]
  · intro text h
    unfold parseJsonFromText
    dsimp only
    rw [if_pos h]
  · intro text hfail hboth
    unfold parseJsonFromText
    dsimp only
    by_cases hemp : jsTrim text = ""
    · rw [if_pos hemp]; exact ⟨_, rfl⟩
    · rw [if_neg hemp, hfail]
      dsimp only
      cases hst : idxOfChar '{' (jsTrim text).data with
      | none =>
        cases lastIdxOfChar '}' (jsTrim text).data <;> exact ⟨_, rfl⟩
      | some st =>
        cases hen : lastIdxOfChar '}' (jsTrim text).data with
        | none => exact ⟨_, rfl⟩
        | some en =>
          dsimp only
          by_cases hle : en ≤ st
          · rw [if_pos hle]; exact ⟨_, rfl⟩
          · rw [if_neg hle]
            rw [hboth st en hst hen (by omega)]
            exact ⟨_, rfl⟩
  · intro text noiseL noiseR mid v hpre hpost hhead hlast hdecomp hfail hmid
    obtain ⟨mt, hmdata⟩ : ∃ t, mid.data = '{' :: t := by
      cases hm : mid.data with
      | nil => rw [hm] at hhead; cases hhead
      | cons c cs =>
        rw [hm] at hhead
        simp only [List.head?] at hhead
        injection hhead with hc
        exact ⟨cs, by rw [hc]⟩
    obtain ⟨rt, hrdata⟩ : ∃ t, mid.data.reverse = '}' :: t := by
      have h1 : mid.data.reverse.head? = some '}' := by
        rw [List.head?_reverse]; exact hlast
      cases hr : mid.data.reverse with
      | nil => rw [hr] at h1; cases h1
      | cons c cs =>
        rw [hr] at h1
        simp only [List.head?] at h1
        injection h1 with hc
        exact ⟨cs, by rw [hc]⟩
    have hlen2 : 2 ≤ mid.data.length := by
      cases mt with
      | nil =>
        rw [hmdata] at hrdata
        simp at hrdata
      | cons x xs =>
        rw [hmdata]
        simp
    have hne : jsTrim text ≠ "" := by
      intro h0
      rw [h0] at hdecomp
      have : ([] : List Char) = noiseL ++ mid.data ++ noiseR := hdecomp
      rw [hmdata] at this
      simp at this
    have hst : idxOfChar '{' (jsTrim text).data = some noiseL.length := by
      rw [hdecomp, List.append_assoc]
      apply idxOfChar_append_head
      · rw [hmdata]; rfl
      · intro a ha; exact (hpre a ha).1
    have hen : lastIdxOfChar '}' (jsTrim text).data
        = some (noiseL.length + mid.data.length - 1) := by
      unfold lastIdxOfChar
      rw [hdecomp]
      have hrev : (noiseL ++ mid.data ++ noiseR).reverse
          = noiseR.reverse ++ (mid.data.reverse ++ noiseL.reverse) := by
        simp [List.reverse_append, List.append_assoc]
      rw [hrev]
      rw [idxOfChar_append_head '}' noiseR.reverse
        (by rw [hrdata]; rfl)
        (fun a ha => (hpost a (List.mem_reverse.mp ha)).2)]
      simp only [Option.map_some']
      congr 1
      simp only [List.length_append, List.length_reverse]
      omega
    have hslice : (((jsTrim text).data.drop noiseL.length).take
        (noiseL.length + mid.data.length - 1 + 1 - noiseL.length)) = mid.data := by
      rw [hdecomp, List.append_assoc, List.drop_left]
      have harith : noiseL.length + mid.data.length - 1 + 1 - noiseL.length
          = mid.data.length := by omega
      rw [harith, List.take_left]
    have hmideq : (⟨mid.data⟩ : String) = mid := by cases mid; rfl
    unfold parseJsonFromText
    dsimp only
    rw [if_neg hne, hfail, hst, hen]
    dsimp only
    rw [if_neg (by omega : ¬(noiseL.length + mid.data.length - 1 ≤ noiseL.length))]
    rw [hslice, hmideq, hmid]

/-- C8 witness: a valid payload wrapped in prose is recovered exactly. -/
theorem parseJsonFromText_spec_witness :
    parseJson (jsTrim "Here is the result: \x7b\"a\": 1\x7d thanks") = none ∧
    parseJsonFromText "Here is the result: \x7b\"a\": 1\x7d thanks"
      = .ok (Json.obj [("a", Json.num ⟨1, 0⟩)]) :=
  ⟨rfl,
   parseJsonFromText_spec.2.2.2 "Here is the result: \x7b\"a\": 1\x7d thanks"
     "Here is the result: ".data " thanks".data "\x7b\"a\": 1\x7d"
     (Json.obj [("a", Json.num ⟨1, 0⟩)])
     (by decide) (by decide) rfl rfl rfl rfl rfl⟩

/-- On a nonempty candidate list the loop outcome does not depend on the
incoming cached handle or `lastError` (both are overwritten before use). -/
theorem chainLoop_input_indep (env : String → GemOutcome) (c : String)
    (rest : List String) (st st' : Option String) (le le' : Option JsError) :
    chainLoop env st le (c :: rest) = chainLoop env st' le' (c :: rest) := by
  unfold chainLoop
  cases env c with
  | success t => rfl
  | failure e => rfl

/-- Peeling a prefix of "model not found" failures off the candidate list:
the loop tries each, resets the handle, and continues with the tail. -/
theorem chainLoop_notfound_prefix (env : String → GemOutcome) (c : String)
    (rest : List String) :
    ∀ (pre : List String),
      (∀ m ∈ pre, ∃ e, env m = .failure e ∧ isModelNotFoundError e = true) →
      ∀ (st : Option String) (le : Option JsError),
      chainLoop env st le (pre ++ c :: rest) =
        ⟨pre ++ (chainLoop env none none (c :: rest)).attempts,
         (chainLoop env none none (c :: rest)).cached,
         (chainLoop env none none (c :: rest)).lastError,
         (chainLoop env none none (c :: rest)).resultText⟩ := by
  intro pre
  induction pre with
  | nil =>
    intro _ st le
    rw [List.nil_append, chainLoop_input_indep env c rest st none le none]
    cases chainLoop env none none (c :: rest)
    simp
  | cons p ps ih =>
    intro h st le
    obtain ⟨e, he, hnf⟩ := h p (by simp)
    rw [List.cons_append]
    unfold chainLoop
    rw [he]
    dsimp only
    rw [if_pos hnf]
    rw [ih (fun m hm => h m (by simp [hm])) none (some e)]
    dsimp only
    rw [List.cons_append]
    rfl

/-- C1: `callGeminiJson` over an ordered candidate list, given that the
candidates before `c` all fail with "model not found"-classified errors:
(1) if `c` succeeds, the chain returns the parsed output of `c`, the
candidates after `c` are never attempted, and the handle stays bound to `c`;
(2) if `c` fails with any other error, the chain aborts immediately with that
error normalized, without trying further candidates; and (3) if every
candidate fails with "model not found", every candidate is attempted once in
order, the cached handle is discarded, and the chain fails with the last
error normalized — an error carrying both the internal "Gemini call failed"
message and a public-safe message. -/
theorem callGeminiJson_chain_spec :
    (∀ (env : String → GemOutcome) (pre : List String) (c : String) (post : List String) t,
      (∀ m ∈ pre, ∃ e, env m = .failure e ∧ isModelNotFoundError e = true) →
      env c = .success t →
      callGeminiJson env (pre ++ c :: post) = parseJsonFromText t ∧
      (chainLoop env none none (pre ++ c :: post)).attempts = pre ++ [c] ∧
      (chainLoop env none none (pre ++ c :: post)).cached = some c) ∧
    (∀ (env : String → GemOutcome) (pre : List String) (c : String) (post : List String) e,
      (∀ m ∈ pre, ∃ e2, env m = .failure e2 ∧ isModelNotFoundError e2 = true) →
      env c = .failure e → isModelNotFoundError e = false →
      callGeminiJson env (pre ++ c :: post) = .error (normalizeGeminiError e) ∧
      (chainLoop env none none (pre ++ c :: post)).attempts = pre ++ [c]) ∧
    (∀ (env : String → GemOutcome) (cands : List String),
      cands ≠ [] →
      (∀ m ∈ cands, ∃ e, env m = .failure e ∧ isModelNotFoundError e = true) →
      (chainLoop env none none cands).attempts = cands ∧
      (chainLoop env none none cands).cached = none ∧
      ∃ elast, env (cands.getLastD "") = .failure elast ∧
        callGeminiJson env cands = .error (normalizeGeminiError elast) ∧
        (normalizeGeminiError elast).publicMessage.isSome = true ∧
        (normalizeGeminiError elast).message = "Gemini call failed: " ++ elast.message) := by
  refine ⟨?_, ?_, ?_⟩
  · intro env pre c post t hpre hc
    have hcons : chainLoop env none none (c :: post) = ⟨[c], some c, none, some t⟩ := by
      unfold chainLoop
      rw [hc]
    have hloop := chainLoop_notfound_prefix env c post pre hpre none none
    rw [hcons] at hloop
    refine ⟨?_, by rw [hloop], by rw [hloop]⟩
    unfold callGeminiJson
    rw [hloop]
  · intro env pre c post e hpre hc hnf
    have hcons : chainLoop env none none (c :: post) = ⟨[c], some c, some e, none⟩ := by
      unfold chainLoop
      rw [hc]
      dsimp only
      rw [if_neg (by simp [hnf])]
    have hloop := chainLoop_notfound_prefix env c post pre hpre none none
    rw [hcons] at hloop
    refine ⟨?_, by rw [hloop]⟩
    unfold callGeminiJson
    rw [hloop]
  · intro env cands hne hall
    induction cands with
    | nil => exact absurd rfl hne
    | cons c rest ih =>
      cases rest with
      | nil =>
        obtain ⟨e, he, hnf⟩ := hall c (by simp)
        have hloop : chainLoop env none none [c] = ⟨[c], none, some e, none⟩ := by
          unfold chainLoop
          rw [he]
          dsimp only
          rw [if_pos hnf]
          rfl
        refine ⟨by rw [hloop], by rw [hloop], e, by simpa using he, ?_, ?_, rfl⟩
        · unfold callGeminiJson
          rw [hloop]
        · unfold normalizeGeminiError
          dsimp only
          split_ifs <;> rfl
      | cons c2 rest2 =>
        have hall2 : ∀ m ∈ c2 :: rest2, ∃ e, env m = .failure e ∧ isModelNotFoundError e = true :=
          fun m hm => hall m (by simp [hm])
        obtain ⟨hatts, hcached, elast, hel, hcall, hpub, hmsg⟩ := ih (by simp) hall2
        have hstep := chainLoop_notfound_prefix env c2 rest2 [c]
          (fun m hm => hall m (by simp at hm; simp [hm])) none none
        have hceq : callGeminiJson env (c :: c2 :: rest2) = callGeminiJson env (c2 :: rest2) := by
          unfold callGeminiJson
          rw [show ((c :: c2 :: rest2) : List String) = [c] ++ c2 :: rest2 from rfl, hstep]
        refine ⟨?_, ?_, elast, by simpa using hel, by rw [hceq]; exact hcall, hpub, hmsg⟩
        · rw [show ((c :: c2 :: rest2) : List String) = [c] ++ c2 :: rest2 from rfl, hstep]
          simp [hatts]
        · rw [show ((c :: c2 :: rest2) : List String) = [c] ++ c2 :: rest2 from rfl, hstep]
          exact hcached

/-- C1 witness: candidates `mA`, `mB` fail "not found", `mC` succeeds — the
chain returns `mC`'s parsed output and attempts exactly `[mA, mB, mC]`. -/
theorem callGeminiJson_chain_spec_witness :
    fxChainEnv "mC" = .success "\x7b\"ok\": true\x7d" ∧
    callGeminiJson fxChainEnv ["mA", "mB", "mC"] = .ok (Json.obj [("ok", Json.bool true)]) ∧
    (chainLoop fxChainEnv none none ["mA", "mB", "mC"]).attempts = ["mA", "mB", "mC"] := by
  have h := callGeminiJson_chain_spec.1 fxChainEnv ["mA", "mB"] "mC" []
    "\x7b\"ok\": true\x7d"
    (by
      intro m hm
      simp only [List.mem_cons, List.not_mem_nil, or_false] at hm
      rcases hm with rfl | rfl
      · exact ⟨⟨"model mA not found", some 404, none, none⟩, rfl, by decide⟩
      · exact ⟨⟨"mB is not supported for generateContent", none, none, none⟩, rfl, by decide⟩)
    rfl
  exact ⟨rfl, by rw [show (["mA", "mB", "mC"] : List String) = ["mA", "mB"] ++ "mC" :: [] from rfl, h.1]; rfl,
         by rw [show (["mA", "mB", "mC"] : List String) = ["mA", "mB"] ++ "mC" :: [] from rfl, h.2.1]⟩

/-- The normalized language code is supported or equal to the fallback. -/
theorem normalizedLanguageCodeOf_cases (j : Json) (fb : String) :
    normalizedLanguageCodeOf j fb ∈ SUPPORTED_LANGUAGES ∨
    normalizedLanguageCodeOf j fb = fb := by
  unfold normalizedLanguageCodeOf
  dsimp only
  split_ifs with hmem
  · left; simpa using hmem
  · right; rfl

/-- Shape of any successful `validateAndNormalize` result: non-blank strings,
severity in range, and a language code that is either a supported payload
code or the fallback. -/
theorem validateAndNormalize_ok (j : Json) (fb : String) (n : DiagnosisResult)
    (h : validateAndNormalize j fb = .ok n) :
    n.condition ≠ "" ∧ n.reasoning ≠ "" ∧ 1 ≤ n.severity ∧ n.severity ≤ 3 ∧
    (n.languageCode ∈ SUPPORTED_LANGUAGES ∨ n.languageCode = fb) := by
  unfold validateAndNormalize at h
  cases j with
  | obj fields =>
    dsimp only at h
    cases hsev : (jsToNum ((Json.obj fields).getField "severity")).bind JNum.toInt? with
    | none =>
      rw [hsev] at h
      split_ifs at h
    | some v =>
      rw [hsev] at h
      dsimp only at h
      split_ifs at h with hc hr hrange
      all_goals try cases h
      exact ⟨hc, hr, hrange.1, hrange.2, normalizedLanguageCodeOf_cases _ _⟩
  | null => cases h
  | bool b => cases h
  | num m => cases h
  | str s => cases h
  | arr elems => cases h

/-- A `some` result of `requestedLanguageCodeOf` is a supported code. -/
theorem requestedLanguageCodeOf_mem (lc : Option String) (c : String)
    (h : requestedLanguageCodeOf lc = some c) : c ∈ SUPPORTED_LANGUAGES := by
  unfold requestedLanguageCodeOf at h
  cases hc : candidateLanguageCodeOf lc with
  | none => rw [hc] at h; cases h
  | some c0 =>
    rw [hc] at h
    dsimp only at h
    split_ifs at h with hmem
    all_goals try cases h
    simpa using hmem

/-- A successful translation either returns the diagnosis unchanged or
replaces condition/reasoning by non-blank translations and the language code
by the target. -/
theorem translateDiagnosisFields_ok (env : GenPayload → String → GemOutcome)
    (cfg : Option String) (d : DiagnosisResult) (t : String) (r : DiagnosisResult)
    (h : translateDiagnosisFields env cfg d t = .ok r) :
    r = d ∨ (r.condition ≠ "" ∧ r.reasoning ≠ "" ∧ r.severity = d.severity ∧
             r.languageCode = t) := by
  unfold translateDiagnosisFields at h
  split_ifs at h with h0
  all_goals first
    | (injection h with h'
       exact .inl h'.symm)
    | (cases hcall : callGeminiJson (env (translationPayload d.condition d.reasoning t))
          (getCandidateModels cfg) with
       | error e => rw [hcall] at h; cases h
       | ok parsed =>
         rw [hcall] at h
         dsimp only at h
         split_ifs at h with hblank
         all_goals (injection h with h'; subst h')
         all_goals first
           | exact .inl rfl
           | (push_neg at hblank
              exact .inr ⟨hblank.1, hblank.2, rfl, rfl⟩))

/-- Any successful `finishDiagnosis` satisfies the result invariant, given a
supported fallback and a supported requested code. -/
theorem finishDiagnosis_ok (env : GenPayload → String → GemOutcome)
    (cfgText : Option String) (parsed : Json) (requested : Option String)
    (fallback : String) (r : DiagnosisResult)
    (hreq : ∀ c, requested = some c → c ∈ SUPPORTED_LANGUAGES)
    (hfb : fallback ∈ SUPPORTED_LANGUAGES)
    (h : finishDiagnosis env cfgText parsed requested fallback = .ok r) :
    (r.severity = 1 ∨ r.severity = 2 ∨ r.severity = 3) ∧
    r.condition ≠ "" ∧ r.reasoning ≠ "" ∧ r.languageCode ∈ SUPPORTED_LANGUAGES := by
  unfold finishDiagnosis at h
  cases hval : validateAndNormalize parsed fallback with
  | error e => rw [hval] at h; cases h
  | ok n =>
    rw [hval] at h
    dsimp only at h
    obtain ⟨hc, hr, hs1, hs3, hlang⟩ := validateAndNormalize_ok _ _ _ hval
    have htmem :
        requested.getD (if n.languageCode ≠ "" then n.languageCode else fallback)
          ∈ SUPPORTED_LANGUAGES := by
      cases hq : requested with
      | some c => exact hreq c hq
      | none =>
        dsimp only [Option.getD]
        split_ifs with hne
        · rcases hlang with hmem | hfb'
          · exact hmem
          · rw [hfb']; exact hfb
        · exact hfb
    cases htr : translateDiagnosisFields env cfgText
        { n with languageCode :=
            requested.getD (if n.languageCode ≠ "" then n.languageCode else fallback) }
        (requested.getD (if n.languageCode ≠ "" then n.languageCode else fallback)) with
    | error e => rw [htr] at h; cases h
    | ok r' =>
      rw [htr] at h
      injection h with h'
      subst h'
      rcases translateDiagnosisFields_ok _ _ _ _ _ htr with rfl | ⟨hc', hr', hs', hl'⟩
      · refine ⟨?_, hc, hr, htmem⟩
        dsimp only
        omega
      · refine ⟨?_, hc', hr', ?_⟩
        · rw [hs']
          dsimp only
          omega
        · rw [hl']
          exact htmem

/-- C5: every `DiagnosisResult` that `generateDiagnosis` returns — including
after the optional translation step — has severity in `{1,2,3}`, non-empty
condition and reasoning, and a language code from the supported set. -/
theorem generateDiagnosis_result_valid :
    ∀ (env : GenPayload → String → GemOutcome) (cfgText cfgImage : Option String)
      (input : DiagnosisInput) (r : DiagnosisResult),
      generateDiagnosis env cfgText cfgImage input = .ok r →
      (r.severity = 1 ∨ r.severity = 2 ∨ r.severity = 3) ∧
      r.condition ≠ "" ∧ r.reasoning ≠ "" ∧
      r.languageCode ∈ SUPPORTED_LANGUAGES := by
  intro env cfgText cfgImage input r h
  unfold generateDiagnosis at h
  cases hsym : input.symptoms with
  | none => rw [hsym] at h; cases h
  | some symptoms =>
    rw [hsym] at h
    dsimp only at h
    split_ifs at h
    all_goals (
      split at h
      all_goals try split_ifs at h
      all_goals (
        refine finishDiagnosis_ok _ _ _ _ _ _ ?_ ?_ h
        · exact fun c hc => requestedLanguageCodeOf_mem input.languageCode c hc
        · cases hq : requestedLanguageCodeOf input.languageCode with
          | some c => exact requestedLanguageCodeOf_mem input.languageCode c hq
          | none => exact detectLanguage_mem_supported symptoms))

/-- C5 witness: a concrete run (primary succeeds, translation returns blank
fields) yields a result satisfying the invariant. -/
theorem generateDiagnosis_result_valid_witness :
    generateDiagnosis fxEnvTranslationEmpty none none ⟨some ["fever"], none, some "es"⟩
      = .ok ⟨"Flu", 2, "ok", "es"⟩ ∧
    (((2 : Int) = 1 ∨ (2 : Int) = 2 ∨ (2 : Int) = 3) ∧
     ("Flu" : String) ≠ "" ∧ ("ok" : String) ≠ "" ∧
     ("es" : String) ∈ SUPPORTED_LANGUAGES) :=
  ⟨rfl, generateDiagnosis_result_valid fxEnvTranslationEmpty none none
    ⟨some ["fever"], none, some "es"⟩ ⟨"Flu", 2, "ok", "es"⟩ rfl⟩

/-- The script heuristic never returns the empty string. -/
theorem detectLanguage_ne_empty (symptoms : List String) :
    detectLanguageFromSymptoms symptoms ≠ "" := by
  intro h
  have hmem := detectLanguage_mem_supported symptoms
  rw [h] at hmem
  simp [SUPPORTED_LANGUAGES] at hmem

/-- C6: the final language code of `transcribeSymptomsFromAudio` is resolved
by: validated audio resolves through the post-validation body; a dedicated
language-detection call that succeeds with a supported code overrides the
transcription call's code (ending resolution when that code is not the
baseline); a detection call that fails keeps the transcription call's code
and never fails the operation; and when the code is still `"en"` with a
transcript in a recognized non-baseline script, the script heuristic
overrides it — so a Telugu transcript yields `"te"`. -/
theorem transcription_language_resolution :
    (∀ (env : GenPayload → String → GemOutcome) (cfg : Option String) (audio : AudioInput),
      jsTrim audio.data ≠ "" →
      isAudioMime (jsTrim ((jsSplit (jsToLower (jsTrim audio.mimeType)) ';').headD "")) = true →
      transcribeSymptomsFromAudio env cfg (some audio) =
        resolveTranscription env cfg
          (jsTrim ((jsSplit (jsToLower (jsTrim audio.mimeType)) ';').headD ""))
          (jsTrim audio.data)) ∧
    (∀ (env : GenPayload → String → GemOutcome) (cfg : Option String) (mt ad : String)
       (j1 j2 : Json) (l : String),
      callGeminiJson (env (transcribePayload mt ad)) (getCandidateModels cfg) = .ok j1 →
      getTrimmedStr j1 "symptomsText" ≠ "" →
      callGeminiJson (env (languageDetectPayload mt ad)) (getCandidateModels cfg) = .ok j2 →
      (match j2.getField "languageCode" with
       | some (.str s) => jsToLower (jsTrim s)
       | _ => "") = l →
      SUPPORTED_LANGUAGES.contains l = true →
      l ≠ "en" →
      resolveTranscription env cfg mt ad = .ok ⟨getTrimmedStr j1 "symptomsText", l⟩) ∧
    (∀ (env : GenPayload → String → GemOutcome) (cfg : Option String) (mt ad : String)
       (j1 : Json) (e : JsError),
      callGeminiJson (env (transcribePayload mt ad)) (getCandidateModels cfg) = .ok j1 →
      getTrimmedStr j1 "symptomsText" ≠ "" →
      callGeminiJson (env (languageDetectPayload mt ad)) (getCandidateModels cfg) = .error e →
      (∃ l, resolveTranscription env cfg mt ad = .ok ⟨getTrimmedStr j1 "symptomsText", l⟩) ∧
      (transcriptionLangOf j1 ≠ "en" →
        resolveTranscription env cfg mt ad
          = .ok ⟨getTrimmedStr j1 "symptomsText", transcriptionLangOf j1⟩)) ∧
    (∀ (env : GenPayload → String → GemOutcome) (cfg : Option String) (mt ad : String)
       (j1 : Json) (e : JsError),
      callGeminiJson (env (transcribePayload mt ad)) (getCandidateModels cfg) = .ok j1 →
      getTrimmedStr j1 "symptomsText" ≠ "" →
      callGeminiJson (env (languageDetectPayload mt ad)) (getCandidateModels cfg) = .error e →
      transcriptionLangOf j1 = "en" →
      detectLanguageFromSymptoms [getTrimmedStr j1 "symptomsText"] ≠ "en" →
      resolveTranscription env cfg mt ad
        = .ok ⟨getTrimmedStr j1 "symptomsText",
               detectLanguageFromSymptoms [getTrimmedStr j1 "symptomsText"]⟩) ∧
    (∀ (env : GenPayload → String → GemOutcome) (cfg : Option String) (mt ad : String)
       (j1 j2 : Json),
      callGeminiJson (env (transcribePayload mt ad)) (getCandidateModels cfg) = .ok j1 →
      getTrimmedStr j1 "symptomsText" ≠ "" →
      callGeminiJson (env (languageDetectPayload mt ad)) (getCandidateModels cfg) = .ok j2 →
      (match j2.getField "languageCode" with
       | some (.str s) => jsToLower (jsTrim s)
       | _ => "") = "en" →
      detectLanguageFromSymptoms [getTrimmedStr j1 "symptomsText"] ≠ "en" →
      resolveTranscription env cfg mt ad
        = .ok ⟨getTrimmedStr j1 "symptomsText",
               detectLanguageFromSymptoms [getTrimmedStr j1 "symptomsText"]⟩) := by
  refine ⟨?_, ?_, ?_, ?_, ?_⟩
  · intro env cfg audio hdat hmime
    unfold transcribeSymptomsFromAudio
    dsimp only
    rw [if_neg hdat, if_neg (not_not_intro hmime)]
  · intro env cfg mt ad j1 j2 l h1 hst h2 hl hsup hlen
    unfold resolveTranscription
    rw [h1]
    dsimp only
    rw [h2]
    dsimp only
    rw [hl, if_pos hsup, if_neg hst]
    simp [hlen]
  · intro env cfg mt ad j1 e h1 hst he
    constructor
    · unfold resolveTranscription
      rw [h1]
      dsimp only
      rw [he]
      dsimp only
      rw [if_neg hst]
      exact ⟨_, rfl⟩
    · intro hne
      unfold resolveTranscription
      rw [h1]
      dsimp only
      rw [he]
      dsimp only
      rw [if_neg hst]
      simp [hne]
  · intro env cfg mt ad j1 e h1 hst he ht0 hscript
    unfold resolveTranscription
    rw [h1]
    dsimp only
    rw [he]
    dsimp only
    rw [ht0, if_neg hst]
    simp [hst, hscript, detectLanguage_ne_empty]
  · intro env cfg mt ad j1 j2 h1 hst h2 hl hscript
    unfold resolveTranscription
    rw [h1]
    dsimp only
    rw [h2]
    dsimp only
    rw [hl, if_pos (show SUPPORTED_LANGUAGES.contains "en" = true from rfl), if_neg hst]
    simp [hst, hscript, detectLanguage_ne_empty]

/-- C6 witness: Telugu-script audio whose transcription call mislabels the
language as `"en"` and whose dedicated detection call fails still resolves to
`languageCode = "te"` through the script heuristic. -/
theorem transcription_language_resolution_witness :
    transcriptionLangOf
        (Json.obj [("symptomsText", Json.str "జ్వరం మరియు తలనొప్పి"),
                   ("languageCode", Json.str "en")]) = "en" ∧
    transcribeSymptomsFromAudio fxEnvTelugu none
        (some ⟨"QUJD", "audio/webm;codecs=opus"⟩)
      = .ok ⟨"జ్వరం మరియు తలనొప్పి", "te"⟩ := by
  have h0 := transcription_language_resolution.1 fxEnvTelugu none
    ⟨"QUJD", "audio/webm;codecs=opus"⟩ (by decide) (by decide)
  have hc := transcription_language_resolution.2.2.2.1 fxEnvTelugu none
    "audio/webm" "QUJD"
    (Json.obj [("symptomsText", Json.str "జ్వరం మరియు తలనొప్పి"),
               ("languageCode", Json.str "en")])
    (normalizeGeminiError ⟨"detect down", none, none, none⟩)
    rfl (by decide) rfl rfl (by decide)
  exact ⟨rfl, by rw [h0]; exact hc⟩

/-- With no `languageCode` field the normalized code is the fallback. -/
theorem normalizedLanguageCodeOf_absent (j : Json) (fb : String)
    (h : j.getField "languageCode" = none) :
    normalizedLanguageCodeOf j fb = fb := by
  unfold normalizedLanguageCodeOf
  rw [h]
  rfl

/-- With no `languageCode` field the transcription-call code is `"en"`. -/
theorem transcriptionLangOf_absent (j : Json)
    (h : j.getField "languageCode" = none) :
    transcriptionLangOf j = "en" := by
  unfold transcriptionLangOf
  rw [h]
  rfl

/-- C3 counterexample: a diagnosis payload missing the required
`languageCode` field does **not** fail contract validation — it is silently
coerced to the fallback code. -/
theorem validateAndNormalize_missing_languageCode_coerced :
    validateAndNormalize
        (Json.obj [("condition", Json.str "Flu"), ("severity", Json.num ⟨2, 0⟩),
                   ("reasoning", Json.str "Congestion")]) "fr"
      = .ok ⟨"Flu", 2, "Congestion", "fr"⟩ := by
  rfl

/-- C3 (amended): for diagnosis payloads, a missing (or blank) `condition`,
`reasoning`, or missing `severity` fails with an error naming that field, but
a missing `languageCode` never fails — it is coerced to the fallback; for
transcription payloads, a missing `symptomsText` fails with the generic
"Transcription failed" error (which does not name the field), and a missing
`languageCode` is coerced to `"en"`. -/
theorem contract_validation_fields :
    (∀ (fields : List (String × Json)) (fb : String),
      getTrimmedStr (Json.obj fields) "condition" = "" →
      validateAndNormalize (Json.obj fields) fb
        = .error ⟨"Invalid LLM response: condition is required", none, none, none⟩) ∧
    (∀ (fields : List (String × Json)) (fb : String),
      getTrimmedStr (Json.obj fields) "condition" ≠ "" →
      getTrimmedStr (Json.obj fields) "reasoning" = "" →
      validateAndNormalize (Json.obj fields) fb
        = .error ⟨"Invalid LLM response: reasoning is required", none, none, none⟩) ∧
    (∀ (fields : List (String × Json)) (fb : String),
      getTrimmedStr (Json.obj fields) "condition" ≠ "" →
      getTrimmedStr (Json.obj fields) "reasoning" ≠ "" →
      (Json.obj fields).getField "severity" = none →
      validateAndNormalize (Json.obj fields) fb
        = .error ⟨"Invalid LLM response: severity must be 1, 2, or 3", none, none, none⟩) ∧
    (∀ (j : Json) (fb : String) (r : DiagnosisResult),
      j.getField "languageCode" = none →
      validateAndNormalize j fb = .ok r →
      r.languageCode = fb) ∧
    (∀ (env : GenPayload → String → GemOutcome) (cfg : Option String) (mt ad : String)
       (j1 : Json),
      callGeminiJson (env (transcribePayload mt ad)) (getCandidateModels cfg) = .ok j1 →
      getTrimmedStr j1 "symptomsText" = "" →
      resolveTranscription env cfg mt ad
        = .error ⟨"Transcription failed", none, some 503,
                  some "Transcription service returned invalid output"⟩) ∧
    (∀ (env : GenPayload → String → GemOutcome) (cfg : Option String) (mt ad : String)
       (j1 : Json) (e : JsError),
      callGeminiJson (env (transcribePayload mt ad)) (getCandidateModels cfg) = .ok j1 →
      getTrimmedStr j1 "symptomsText" ≠ "" →
      j1.getField "languageCode" = none →
      callGeminiJson (env (languageDetectPayload mt ad)) (getCandidateModels cfg) = .error e →
      detectLanguageFromSymptoms [getTrimmedStr j1 "symptomsText"] = "en" →
      resolveTranscription env cfg mt ad
        = .ok ⟨getTrimmedStr j1 "symptomsText", "en"⟩) := by
  refine ⟨?_, ?_, ?_, ?_, ?_, ?_⟩
  · intro fields fb hc
    unfold validateAndNormalize
    dsimp only
    rw [if_pos hc]
  · intro fields fb hc hr
    unfold validateAndNormalize
    dsimp only
    rw [if_neg hc, if_pos hr]
  · intro fields fb hc hr hsev
    have hnone : (jsToNum ((Json.obj fields).getField "severity")).bind JNum.toInt? = none := by
      rw [hsev]
      rfl
    unfold validateAndNormalize
    dsimp only
    rw [if_neg hc, if_neg hr, hnone]
  · intro j fb r hlc h2
    unfold validateAndNormalize at h2
    cases j with
    | obj fields =>
      dsimp only at h2
      rw [normalizedLanguageCodeOf_absent _ fb hlc] at h2
      cases hsev : (jsToNum ((Json.obj fields).getField "severity")).bind JNum.toInt? with
      | none =>
        rw [hsev] at h2
        split_ifs at h2
      | some v =>
        rw [hsev] at h2
        dsimp only at h2
        split_ifs at h2
        all_goals try cases h2
        rfl
    | null => cases h2
    | bool b => cases h2
    | num m => cases h2
    | str s => cases h2
    | arr elems => cases h2
  · intro env cfg mt ad j1 h1 hblank
    unfold resolveTranscription
    rw [h1]
    dsimp only
    rw [if_pos hblank]
  · intro env cfg mt ad j1 e h1 hstne hlc he hscr
    unfold resolveTranscription
    rw [h1]
    dsimp only
    rw [he]
    dsimp only
    rw [transcriptionLangOf_absent _ hlc, if_neg hstne]
    simp [hstne, hscr]

/-- C3 witness: the condition-naming clause and the generic transcription
failure instantiated on concrete payloads. -/
theorem contract_validation_fields_witness :
    getTrimmedStr (Json.obj [("severity", Json.num ⟨2, 0⟩), ("reasoning", Json.str "x")])
        "condition" = "" ∧
    validateAndNormalize
        (Json.obj [("severity", Json.num ⟨2, 0⟩), ("reasoning", Json.str "x")]) "fr"
      = .error ⟨"Invalid LLM response: condition is required", none, none, none⟩ ∧
    resolveTranscription fxEnvNoTranscript none "audio/webm" "QUJD"
      = .error ⟨"Transcription failed", none, some 503,
                some "Transcription service returned invalid output"⟩ :=
  ⟨rfl,
   contract_validation_fields.1 [("severity", Json.num ⟨2, 0⟩), ("reasoning", Json.str "x")]
     "fr" rfl,
   contract_validation_fields.2.2.2.2.1 fxEnvNoTranscript none "audio/webm" "QUJD"
     (Json.obj [("languageCode", Json.str "en")]) rfl rfl⟩

/-- C2 counterexample: with a valid primary diagnosis response and a
translation call that throws, `generateDiagnosis` does **not** return the
untranslated original — it fails with a wrapped 503 error, because
`translateDiagnosisFields` does not catch errors of its model call and the
enclosing handler rethrows them. -/
theorem generateDiagnosis_translation_throw_fails :
    generateDiagnosis fxEnvTranslationThrow none none
      ⟨some ["fever"], none, some "es"⟩ =
    .error ⟨"Gemini call failed: boom", none, some 503,
            some "Diagnosis service returned an invalid response"⟩ := by
  rfl

/-- C2 (amended): translation is best-effort only against *successful* calls
with blank fields — a successful translation call whose payload lacks a
non-blank condition or reasoning leaves the original diagnosis untouched,
while a translation call that throws propagates its error out of
`translateDiagnosisFields` (which `generateDiagnosis` then wraps as a 503
failure instead of keeping the original). -/
theorem translateDiagnosisFields_best_effort :
    (∀ env cfg (d : DiagnosisResult) t j, t ≠ "" → t ≠ "en" →
      callGeminiJson (env (translationPayload d.condition d.reasoning t))
        (getCandidateModels cfg) = .ok j →
      (getTrimmedStr j "condition" = "" ∨ getTrimmedStr j "reasoning" = "") →
      translateDiagnosisFields env cfg d t = .ok d) ∧
    (∀ env cfg (d : DiagnosisResult) t e, t ≠ "" → t ≠ "en" →
      callGeminiJson (env (translationPayload d.condition d.reasoning t))
        (getCandidateModels cfg) = .error e →
      translateDiagnosisFields env cfg d t = .error e) := by
  constructor
  · intro env cfg d t j ht hten hcall hblank
    unfold translateDiagnosisFields
    rw [if_neg (by simp [ht, hten]), hcall]
    dsimp only
    rcases hblank with hb | hb <;> simp [hb]
  · intro env cfg d t e ht hten hcall
    unfold translateDiagnosisFields
    rw [if_neg (by simp [ht, hten]), hcall]

/-- C2 witness: the blank-fields clause instantiated on the concrete
environment whose translation call succeeds with a blank condition. -/
theorem translateDiagnosisFields_best_effort_witness :
    callGeminiJson
      (fxEnvTranslationEmpty (translationPayload "Flu" "ok" "es"))
      (getCandidateModels none)
      = .ok (Json.obj [("condition", Json.str ""), ("reasoning", Json.str "bien")]) ∧
    translateDiagnosisFields fxEnvTranslationEmpty none ⟨"Flu", 2, "ok", "es"⟩ "es"
      = .ok ⟨"Flu", 2, "ok", "es"⟩ :=
  ⟨rfl,
   translateDiagnosisFields_best_effort.1 fxEnvTranslationEmpty none
     ⟨"Flu", 2, "ok", "es"⟩ "es"
     (Json.obj [("condition", Json.str ""), ("reasoning", Json.str "bien")])
     (by decide) (by decide) rfl (.inl rfl)⟩
